import Mathlib

/-!
# tp_math_utils: triangle traversal of `Geometry3D` and the light-type name table

Shallow embedding of `Geometry3D::forEachTriangle` and the `operator==` of `Vertex3D`,
`Indexes3D` and `Geometry3D` (inc/tp_math_utils/Geometry3D.h), and of `lightTypes`,
`lightTypeFromString`, `lightTypeToString`, `Light::setPosition`, `Light::position` and
`Light::direction` (src/Light.cpp).

Modelling conventions.

* `int` values (topology tags, vertex indices) are `Int`; `size_t` values (loop counters, vector
  sizes) are `Nat`.  The only place where `size_t` arithmetic could wrap is the subtraction inside
  `calcVMax`; it is modelled by `subSizeT`, which wraps modulo `2^64` on underflow.
* The visitor closure is an effect.  A run of the traversal is recorded as the list of argument
  triples the closure was called with, in call order, together with the fault (if any) that ended
  the run.  Calls made before a fault stay in the record.  A fault is either an exception
  thrown by a bounds-checked `at`, or the call of `front()` on an empty vector (line 135), whose
  behaviour is undefined and which a checked standard library turns into an abort.
* `glm::vec3` / `glm::vec2` are records over an arbitrary scalar type `F`; the traversal only
  copies them.  `Material` (declared in Material.h) is an arbitrary type `M`.
* The comparison `==` of `float` used by the equality operators is a parameter; its IEEE
  behaviour on NaN and the signed zeros is given by `FloatValue.ieeeEq`.  The matrix functions
  of `Light` are taken over a field (exact arithmetic).
-/

set_option autoImplicit false

namespace tp_math_utils

/-! ## Data model (Geometry3D.h, lines 36-92) -/

/-- The type `glm::vec2`: two scalars. -/
structure vec2 (F : Type) where
  x : F
  y : F
deriving DecidableEq, Repr

/-- The type `glm::vec3`: three scalars. -/
structure vec3 (F : Type) where
  x : F
  y : F
  z : F
deriving DecidableEq, Repr

/-- The record `Vertex3D`: position, texture coordinate and normal. -/
structure Vertex3D (F : Type) where
  vert : vec3 F
  texture : vec2 F
  normal : vec3 F
deriving DecidableEq, Repr

/-- The type `Vertex3DIndexList` is `std::vector<int>`. -/
abbrev Vertex3DIndexList := List Int

/-- The record `Indexes3D`: a topology tag (`int type{0}`) and an index sequence. -/
structure Indexes3D where
  type : Int := 0
  indexes : Vertex3DIndexList := []
deriving DecidableEq, Repr

/-- The value of `TP_TRIANGLES`. -/
def TP_TRIANGLES : Int := 0x0004

/-- The value of `TP_TRIANGLE_STRIP`. -/
def TP_TRIANGLE_STRIP : Int := 0x0005

/-- The value of `TP_TRIANGLE_FAN`. -/
def TP_TRIANGLE_FAN : Int := 0x0006

/-- The record `Geometry3D`: comments, vertices, index groups, the three mutable topology tags
and the material. -/
structure Geometry3D (F M : Type) where
  comments : List String := []
  verts : List (Vertex3D F) := []
  indexes : List Indexes3D := []
  triangleFan : Int := TP_TRIANGLE_FAN
  triangleStrip : Int := TP_TRIANGLE_STRIP
  triangles : Int := TP_TRIANGLES
  material : M

/-! ## Runs of the traversal -/

/-- The three positions handed to the closure in one call `closure(v0, v1, v2)`. -/
abbrev Triangle (F : Type) := vec3 F × vec3 F × vec3 F

/-- The ways a run of `forEachTriangle` can end abnormally.
`indexesAt`: `indexes.indexes.at(v)` throws `std::out_of_range`.
`vertsAt`: `verts.at(i)` throws `std::out_of_range`.
`frontOnEmpty`: `indexes.indexes.front()` is called on an empty vector. -/
inductive Fault where
  | indexesAt
  | vertsAt
  | frontOnEmpty
deriving DecidableEq, Repr

/-- The record of a run: the closure calls made, in order, and the fault that ended the run
(`none` when the run returned normally). -/
structure Visits (F : Type) where
  calls : List (Triangle F)
  fault : Option Fault
deriving DecidableEq, Repr

/-- A run that returns normally without calling the closure. -/
def Visits.done {F : Type} : Visits F := ⟨[], none⟩

/-- A run ended at once by a fault. -/
def Visits.throw {F : Type} (e : Fault) : Visits F := ⟨[], some e⟩

/-- One closure call followed by the rest of the run. -/
def Visits.call {F : Type} (t : Triangle F) (rest : Visits F) : Visits F :=
  ⟨t :: rest.calls, rest.fault⟩

/-- Sequencing of two runs: the second one happens only if the first returned normally. -/
def Visits.andThen {F : Type} (a b : Visits F) : Visits F :=
  match a.fault with
  | none => ⟨a.calls ++ b.calls, b.fault⟩
  | some e => ⟨a.calls, some e⟩

/-! ## `forEachTriangle` (Geometry3D.h, lines 123-173) -/

/-- Subtraction of two `size_t` values: wraps modulo `2^64` when the result would be negative. -/
def subSizeT (a b : Nat) : Nat :=
  if b ≤ a then a - b else a + 2 ^ 64 - b

/-- The lambda `calcVMax` (lines 128-131) of a group with `size` indices:
`(sub > size) ? 0 : size - sub`. -/
def calcVMax (size sub : Nat) : Nat :=
  if sub > size then 0 else subSizeT size sub

/-- The call `indexes.indexes.at(v)`: bounds-checked read of position `v`. -/
def indexesAt (indexes : Vertex3DIndexList) (v : Nat) : Except Fault Int :=
  match indexes[v]? with
  | some i => .ok i
  | none => .error .indexesAt

/-- The call `verts.at(i)` with an `int` argument.  The argument is converted to `size_t`, which
sends a negative `int` above every possible vector size, so the lookup succeeds exactly when
`0 ≤ i < verts.size()`. -/
def vertsAt {F : Type} (verts : List (Vertex3D F)) (i : Int) : Except Fault (Vertex3D F) :=
  if 0 ≤ i then
    match verts[i.toNat]? with
    | some p => .ok p
    | none => .error .vertsAt
  else .error .vertsAt

/-- The call `indexes.indexes.front()` (line 135).  On an empty vector the call has undefined
behaviour (a checked standard library aborts in it); it is recorded as the fault `frontOnEmpty`,
which ends the run. -/
def front (indexes : Vertex3DIndexList) : Except Fault Int :=
  match indexes with
  | [] => .error .frontOnEmpty
  | i :: _ => .ok i

/-- Body of the fan loop up to the closure call (lines 140-142). -/
def fanBody {F : Type} (verts : List (Vertex3D F)) (firstIndex : Int)
    (indexes : Vertex3DIndexList) (v : Nat) : Except Fault (Triangle F) := do
  let v0 ← vertsAt verts firstIndex
  let v1 ← vertsAt verts (← indexesAt indexes v)
  let v2 ← vertsAt verts (← indexesAt indexes (v + 1))
  pure (v0.vert, v1.vert, v2.vert)

/-- Body of the strip loop and of the triangle-list loop up to the closure call
(lines 153-155 and 165-167, which are the same statements). -/
def stripBody {F : Type} (verts : List (Vertex3D F)) (indexes : Vertex3DIndexList) (v : Nat) :
    Except Fault (Triangle F) := do
  let v0 ← vertsAt verts (← indexesAt indexes v)
  let v1 ← vertsAt verts (← indexesAt indexes (v + 1))
  let v2 ← vertsAt verts (← indexesAt indexes (v + 2))
  pure (v0.vert, v1.vert, v2.vert)

/-- The fan loop `for(size_t v=1; v<vMax; v++)` (lines 138-145), entered at counter `v`. -/
def fanLoop {F : Type} (verts : List (Vertex3D F)) (firstIndex : Int)
    (indexes : Vertex3DIndexList) (vMax v : Nat) : Visits F :=
  if v < vMax then
    match fanBody verts firstIndex indexes v with
    | .ok t => Visits.call t (fanLoop verts firstIndex indexes vMax (v + 1))
    | .error e => Visits.throw e
  else Visits.done
termination_by vMax - v

/-- The strip loop `for(size_t v=0; v<vMax; v++)` (lines 151-158), entered at counter `v`. -/
def stripLoop {F : Type} (verts : List (Vertex3D F)) (indexes : Vertex3DIndexList)
    (vMax v : Nat) : Visits F :=
  if v < vMax then
    match stripBody verts indexes v with
    | .ok t => Visits.call t (stripLoop verts indexes vMax (v + 1))
    | .error e => Visits.throw e
  else Visits.done
termination_by vMax - v

/-- The triangle-list loop `for(size_t v=0; v<vMax; v+=3)` (lines 163-170), entered at
counter `v`. -/
def trianglesLoop {F : Type} (verts : List (Vertex3D F)) (indexes : Vertex3DIndexList)
    (vMax v : Nat) : Visits F :=
  if v < vMax then
    match stripBody verts indexes v with
    | .ok t => Visits.call t (trianglesLoop verts indexes vMax (v + 3))
    | .error e => Visits.throw e
  else Visits.done
termination_by vMax - v

/-- Body of the outer loop (lines 127-172): the traversal of one index group. -/
def forEachTriangleGroup {F M : Type} (g : Geometry3D F M) (indexes : Indexes3D) : Visits F :=
  if indexes.type = g.triangleFan then
    match front indexes.indexes with
    | .error e => Visits.throw e
    | .ok firstIndex =>
      let vMax := calcVMax indexes.indexes.length 1
      fanLoop g.verts firstIndex indexes.indexes vMax 1
  else if indexes.type = g.triangleStrip then
    let vMax := calcVMax indexes.indexes.length 2
    stripLoop g.verts indexes.indexes vMax 0
  else if indexes.type = g.triangles then
    let vMax := calcVMax indexes.indexes.length 2
    trianglesLoop g.verts indexes.indexes vMax 0
  else Visits.done

/-- The outer loop `for(const auto& indexes : indexes)` over the remaining groups. -/
def forEachTriangleFrom {F M : Type} (g : Geometry3D F M) : List Indexes3D → Visits F
  | [] => Visits.done
  | indexes :: rest => (forEachTriangleGroup g indexes).andThen (forEachTriangleFrom g rest)

/-- The method `Geometry3D::forEachTriangle`: the record of the closure calls it makes. -/
def forEachTriangle {F M : Type} (g : Geometry3D F M) : Visits F :=
  forEachTriangleFrom g g.indexes

/-! ## The triangles of a group as index triples

The three topology rules written as structural recursions over the index sequence.  They are the
reference against which the counter loops above are verified. -/

/-- Fan rule: every two neighbouring indices after the apex form a triangle with the apex. -/
def fanTriples (apex : Int) : List Int → List (Int × Int × Int)
  | b :: c :: rest => (apex, b, c) :: fanTriples apex (c :: rest)
  | _ => []

/-- Strip rule: every three neighbouring indices form a triangle. -/
def stripTriples : List Int → List (Int × Int × Int)
  | a :: b :: c :: rest => (a, b, c) :: stripTriples (b :: c :: rest)
  | _ => []

/-- List rule: the indices are consumed three at a time; a rest of one or two is dropped. -/
def listTriples : List Int → List (Int × Int × Int)
  | a :: b :: c :: rest => (a, b, c) :: listTriples rest
  | _ => []

/-- Fan rule on a whole group: the first index is the apex. -/
def fanGroupTriples : List Int → List (Int × Int × Int)
  | [] => []
  | apex :: rest => fanTriples apex rest

/-- The index triples of one group, by the rule its type selects (fan, then strip, then list). -/
def groupTriples {F M : Type} (g : Geometry3D F M) (grp : Indexes3D) : List (Int × Int × Int) :=
  if grp.type = g.triangleFan then fanGroupTriples grp.indexes
  else if grp.type = g.triangleStrip then stripTriples grp.indexes
  else if grp.type = g.triangles then listTriples grp.indexes
  else []

/-- The index triples of all groups of a mesh, in mesh order. -/
def meshTriples {F M : Type} (g : Geometry3D F M) : List (Int × Int × Int) :=
  g.indexes.flatMap (groupTriples g)

/-- An index is valid for a vertex list when it is a valid offset into it. -/
def ValidIndex {F : Type} (verts : List (Vertex3D F)) (i : Int) : Prop :=
  0 ≤ i ∧ i < verts.length

instance {F : Type} (verts : List (Vertex3D F)) (i : Int) : Decidable (ValidIndex verts i) := by
  unfold ValidIndex; infer_instance

/-- The three bounds-checked vertex reads of one triangle, in the order the loops make them. -/
def triangleOf {F : Type} (verts : List (Vertex3D F)) (t : Int × Int × Int) :
    Except Fault (Triangle F) := do
  let v0 ← vertsAt verts t.1
  let v1 ← vertsAt verts t.2.1
  let v2 ← vertsAt verts t.2.2
  pure (v0.vert, v1.vert, v2.vert)

/-- Visiting a list of index triples in order, stopping at the first failed vertex read. -/
def runTriples {F : Type} (verts : List (Vertex3D F)) : List (Int × Int × Int) → Visits F
  | [] => Visits.done
  | t :: rest =>
    match triangleOf verts t with
    | .ok tri => Visits.call tri (runTriples verts rest)
    | .error e => Visits.throw e

/-- The run of one group in terms of its triples: the fault of `front()` on an empty fan group,
otherwise the visit of the group's triples. -/
def runGroup {F M : Type} (g : Geometry3D F M) (grp : Indexes3D) : Visits F :=
  if grp.type = g.triangleFan ∧ grp.indexes = [] then Visits.throw Fault.frontOnEmpty
  else runTriples g.verts (groupTriples g grp)

/-- The runs of the groups one after the other, up to the first fault. -/
def runGroups {F M : Type} (g : Geometry3D F M) : List Indexes3D → Visits F
  | [] => Visits.done
  | grp :: rest => (runGroup g grp).andThen (runGroups g rest)

/-- A triple is valid when its three indices are valid offsets into the vertex list. -/
def ValidTriple {F : Type} (verts : List (Vertex3D F)) (t : Int × Int × Int) : Prop :=
  ValidIndex verts t.1 ∧ ValidIndex verts t.2.1 ∧ ValidIndex verts t.2.2

instance {F : Type} (verts : List (Vertex3D F)) (t : Int × Int × Int) :
    Decidable (ValidTriple verts t) := by
  unfold ValidTriple; infer_instance

/-! ## Triangle count of `stats` and tag renumbering -/

/-- Modelled from the spec: the body of `Geometry3D::stats` (declared at Geometry3D.h line 107)
is not among the sources.  Triangle count of one group as the spec defines it: max(n-2, 0) for a
fan or strip group, floor(n/3) for a triangle-list group, 0 for a group of any other type. -/
def statsGroupTriangleCount {F M : Type} (g : Geometry3D F M) (grp : Indexes3D) : Nat :=
  if grp.type = g.triangleFan ∨ grp.type = g.triangleStrip then
    (max ((grp.indexes.length : Int) - 2) 0).toNat
  else if grp.type = g.triangles then grp.indexes.length / 3
  else 0

/-- Modelled from the spec: the triangle count reported by `Geometry3D::stats` (body not among
the sources), the sum of the per-group triangle counts over all index groups. -/
def statsTriangleCount {F M : Type} (g : Geometry3D F M) : Nat :=
  (g.indexes.map (statsGroupTriangleCount g)).sum

/-- The mesh with every tag number replaced through `f`: the three tag fields and the type of
every group. -/
def renumberTags {F M : Type} (f : Int → Int) (g : Geometry3D F M) : Geometry3D F M :=
  { g with
    triangleFan := f g.triangleFan
    triangleStrip := f g.triangleStrip
    triangles := f g.triangles
    indexes := g.indexes.map (fun grp => { grp with type := f grp.type }) }

/-! ## Light types (Light.cpp, lines 10-40) -/

/-- Modelled from the spec: the enum `LightType` is declared in Light.h, which is not among the
sources.  Its values are the three that Light.cpp names, in the order Directional, Global,
Spot. -/
inductive LightType where
  | Directional
  | Global
  | Spot
deriving DecidableEq, Repr

/-- The function `lightTypes` (lines 10-13). -/
def lightTypes : List String := ["Directional", "Global", "Spot"]

/-- The function `lightTypeFromString` (lines 16-28). -/
def lightTypeFromString (lightType : String) : LightType :=
  if lightType = "Directional" then LightType.Directional
  else if lightType = "Global" then LightType.Global
  else if lightType = "Spot" then LightType.Spot
  else LightType.Directional

/-- The function `lightTypeToString` (lines 31-40); the `return` after the `switch` is not
reached for the three enumerators. -/
def lightTypeToString : LightType → String
  | LightType.Directional => "Directional"
  | LightType.Global => "Global"
  | LightType.Spot => "Spot"

/-! ## Equality operators (Geometry3D.h, lines 51-57, 70-75, 213-222)

The vertex components are `float`s, compared with `==`.  That comparison is the parameter
`floatEq` of the operators below: on IEEE values it is not reflexive (NaN == NaN is false) and
does not imply identity (+0 == -0 is true).  `FloatValue.ieeeEq` is this comparison on a
fragment of the `float` values. -/

/-- A fragment of the IEEE 754 values of a `float`: NaN, the two zeros, and the nonzero integers
`+(pred + 1)` and `-(pred + 1)`. -/
inductive FloatValue where
  | nan
  | zero (negative : Bool)
  | integer (negative : Bool) (pred : Nat)
deriving DecidableEq, Repr

/-- The comparison `==` of two `float`s: NaN equals nothing, the two zeros are equal, nonzero
values are equal when they are the same value. -/
def FloatValue.ieeeEq : FloatValue → FloatValue → Bool
  | FloatValue.zero _, FloatValue.zero _ => true
  | FloatValue.integer s k, FloatValue.integer t j => decide (s = t) && decide (k = j)
  | _, _ => false

/-- The operator `==` of `std::vector`: equal sizes and element-wise equal. -/
def vectorEq {α : Type} (eq : α → α → Bool) : List α → List α → Bool
  | [], [] => true
  | a :: as, b :: bs => eq a b && vectorEq eq as bs
  | _, _ => false

/-- The operator `==` of `glm::vec3`: component-wise `==`. -/
def vec3.operatorEq {F : Type} (floatEq : F → F → Bool) (a b : vec3 F) : Bool :=
  floatEq a.x b.x && floatEq a.y b.y && floatEq a.z b.z

/-- The operator `==` of `glm::vec2`: component-wise `==`. -/
def vec2.operatorEq {F : Type} (floatEq : F → F → Bool) (a b : vec2 F) : Bool :=
  floatEq a.x b.x && floatEq a.y b.y

/-- The operator `Vertex3D::operator==` (lines 51-57). -/
def Vertex3D.operatorEq {F : Type} (floatEq : F → F → Bool) (a other : Vertex3D F) : Bool :=
  vec3.operatorEq floatEq a.vert other.vert &&
  vec2.operatorEq floatEq a.texture other.texture &&
  vec3.operatorEq floatEq a.normal other.normal

/-- The operator `Indexes3D::operator==` (lines 70-75). -/
def Indexes3D.operatorEq (a other : Indexes3D) : Bool :=
  decide (a.type = other.type) &&
  vectorEq (fun i j : Int => decide (i = j)) a.indexes other.indexes

/-- The operator `Geometry3D::operator==` (lines 213-222). -/
def Geometry3D.operatorEq {F M : Type} (floatEq : F → F → Bool) (a other : Geometry3D F M) :
    Bool :=
  vectorEq (fun x y : String => decide (x = y)) a.comments other.comments &&
  vectorEq (Vertex3D.operatorEq floatEq) a.verts other.verts &&
  vectorEq Indexes3D.operatorEq a.indexes other.indexes &&
  decide (a.triangleFan = other.triangleFan) &&
  decide (a.triangleStrip = other.triangleStrip) &&
  decide (a.triangles = other.triangles)

/-- Two closure calls whose arguments compare equal under `==`, argument by argument. -/
def callEq {F : Type} (floatEq : F → F → Bool) (s t : Triangle F) : Bool :=
  vec3.operatorEq floatEq s.1 t.1 && vec3.operatorEq floatEq s.2.1 t.2.1 &&
  vec3.operatorEq floatEq s.2.2 t.2.2

/-- Two runs that agree under `==`: the same fault (or none), and call sequences of the same
length whose calls compare equal one by one. -/
def runsAgree {F : Type} (floatEq : F → F → Bool) (a b : Visits F) : Prop :=
  a.fault = b.fault ∧ vectorEq (callEq floatEq) a.calls b.calls = true

/-! ## Light position and direction (Light.cpp, lines 43-66), in exact arithmetic

Scalars range over a field `K`.  A `glm::mat4` is a 4x4 matrix whose entry in row `r` and column
`c` is GLM's `m[c][r]` (GLM stores columns), so `m[3]` is the fourth column. -/

/-- The type `glm::mat4`; the entry in row `r` and column `c` is GLM's `m[c][r]`. -/
abbrev glm.mat4 (K : Type) := Matrix (Fin 4) (Fin 4) K

/-- The type `glm::mat3`. -/
abbrev glm.mat3 (K : Type) := Matrix (Fin 3) (Fin 3) K

/-- The function `glm::inverse` on a `mat4` in exact arithmetic: the matrix of cofactors
(adjugate) times one over the determinant.  (For determinant 0 GLM divides by zero; here the
result is then the zero matrix.) -/
def glm.inverse {K : Type} [Field K] (m : glm.mat4 K) : glm.mat4 K :=
  (m.det)⁻¹ • m.adjugate

/-- The conversion `glm::mat3(m)` of a `mat4`: its upper-left 3x3 block. -/
def glm.toMat3 {K : Type} (m : glm.mat4 K) : glm.mat3 K :=
  fun r c => m (Fin.castSucc r) (Fin.castSucc c)

/-- Modelled from the spec: the class `Light` is declared in Light.h, which is not among the
sources.  Of its fields only `type` and `viewMatrix` are kept; the others (name, colours,
attenuation, shadow parameters) are neither read nor written by `setPosition`, `position` and
`direction`. -/
structure Light (K : Type) where
  type : LightType
  viewMatrix : glm.mat4 K

/-- The method `Light::setPosition` (lines 43-48): invert the view matrix, replace the fourth
column by `(position, 1)`, invert back. -/
def Light.setPosition {K : Type} [Field K] (l : Light K) (position : vec3 K) : Light K :=
  let m := glm.inverse l.viewMatrix
  let m := m.updateColumn 3 ![position.x, position.y, position.z, 1]
  { l with viewMatrix := glm.inverse m }

/-- The method `Light::position` (lines 51-54): the fourth column of the inverse view matrix,
converted from `vec4` to `vec3` (its first three components). -/
def Light.position {K : Type} [Field K] (l : Light K) : vec3 K :=
  let c : Fin 4 → K := fun r => glm.inverse l.viewMatrix r 3
  ⟨c 0, c 1, c 2⟩

/-- The method `Light::direction` (lines 63-66): the upper-left 3x3 block of the inverse view
matrix applied to `(0, 0, -1)`. -/
def Light.direction {K : Type} [Field K] (l : Light K) : vec3 K :=
  let d : Fin 3 → K := (glm.toMat3 (glm.inverse l.viewMatrix)).mulVec ![0, 0, -1]
  ⟨d 0, d 1, d 2⟩

/-- The affine matrix with linear part `A` and translation `t` (bottom row 0, 0, 0, 1). -/
def affine {K : Type} [Field K] (A : glm.mat3 K) (t : Fin 3 → K) : glm.mat4 K :=
  !![A 0 0, A 0 1, A 0 2, t 0;
     A 1 0, A 1 1, A 1 2, t 1;
     A 2 0, A 2 1, A 2 2, t 2;
     0, 0, 0, 1]

/-! ## Graphics API enumeration values -/

/-- The OpenGL enumeration value `GL_TRIANGLES` (fixed by the graphics API). -/
def GL_TRIANGLES : Int := 0x0004

/-- The OpenGL enumeration value `GL_TRIANGLE_STRIP` (fixed by the graphics API). -/
def GL_TRIANGLE_STRIP : Int := 0x0005

/-- The OpenGL enumeration value `GL_TRIANGLE_FAN` (fixed by the graphics API). -/
def GL_TRIANGLE_FAN : Int := 0x0006

/-! ## Example data -/

/-- Four vertices at the corners of the unit square (scalars in `Int`). -/
def squareVerts : List (Vertex3D Int) :=
  [⟨⟨0, 0, 0⟩, ⟨0, 0⟩, ⟨0, 0, 1⟩⟩, ⟨⟨1, 0, 0⟩, ⟨1, 0⟩, ⟨0, 0, 1⟩⟩,
   ⟨⟨1, 1, 0⟩, ⟨1, 1⟩, ⟨0, 0, 1⟩⟩, ⟨⟨0, 1, 0⟩, ⟨0, 1⟩, ⟨0, 0, 1⟩⟩]

/-- A mesh over `squareVerts` with the default tags (6, 5, 4) and the given groups. -/
def squareMesh (groups : List Indexes3D) : Geometry3D Int Unit :=
  { verts := squareVerts, indexes := groups, material := () }

/-- A vertex at the origin with normal +Z and the given x coordinate. -/
def floatVertex (x : FloatValue) : Vertex3D FloatValue :=
  ⟨⟨x, FloatValue.zero false, FloatValue.zero false⟩,
   ⟨FloatValue.zero false, FloatValue.zero false⟩,
   ⟨FloatValue.zero false, FloatValue.zero false, FloatValue.integer false 0⟩⟩

/-- A mesh of one triangle list 0,1,2 over three vertices; the first vertex has the given x
coordinate.  The material is a number. -/
def floatMesh (x : FloatValue) (material : Nat) : Geometry3D FloatValue Nat :=
  { verts := [floatVertex x, floatVertex (FloatValue.integer false 0),
      floatVertex (FloatValue.integer false 1)],
    indexes := [⟨4, [0, 1, 2]⟩],
    material := material }

/-- A spot light over the rationals whose view matrix is a quarter turn about the z axis
followed by a translation. -/
def exampleLight : Light ℚ :=
  ⟨LightType.Spot, !![0, -1, 0, 2; 1, 0, 0, 3; 0, 0, 1, 4; 0, 0, 0, 1]⟩

/-! ## Helper lemmas -/

theorem calcVMax_eq (size sub : Nat) : calcVMax size sub = size - sub := by
  unfold calcVMax subSizeT
  split
  · omega
  · rw [if_pos (by omega)]

theorem indexesAt_of_getElem? {indexes : List Int} {v : Nat} {i : Int}
    (h : indexes[v]? = some i) : indexesAt indexes v = .ok i := by
  simp [indexesAt, h]

theorem stripBody_eq {F : Type} (verts : List (Vertex3D F)) (indexes : List Int) (v : Nat)
    (a b c : Int) (ha : indexes[v]? = some a) (hb : indexes[v + 1]? = some b)
    (hc : indexes[v + 2]? = some c) :
    stripBody verts indexes v = triangleOf verts (a, b, c) := by
  simp [stripBody, triangleOf, indexesAt_of_getElem? ha, indexesAt_of_getElem? hb,
    indexesAt_of_getElem? hc, bind, Except.bind]

theorem fanBody_eq {F : Type} (verts : List (Vertex3D F)) (indexes : List Int) (v : Nat)
    (a b c : Int) (hb : indexes[v]? = some b) (hc : indexes[v + 1]? = some c) :
    fanBody verts a indexes v = triangleOf verts (a, b, c) := by
  simp [fanBody, triangleOf, indexesAt_of_getElem? hb, indexesAt_of_getElem? hc,
    bind, Except.bind]

theorem stripTriples_short (l : List Int) (h : l.length < 3) : stripTriples l = [] := by
  match l, h with
  | [], _ => rfl
  | [_], _ => rfl
  | [_, _], _ => rfl
  | _ :: _ :: _ :: _, h => simp at h; omega

theorem listTriples_short (l : List Int) (h : l.length < 3) : listTriples l = [] := by
  match l, h with
  | [], _ => rfl
  | [_], _ => rfl
  | [_, _], _ => rfl
  | _ :: _ :: _ :: _, h => simp at h; omega

theorem fanTriples_short (apex : Int) (l : List Int) (h : l.length < 2) :
    fanTriples apex l = [] := by
  match l, h with
  | [], _ => rfl
  | [_], _ => rfl
  | _ :: _ :: _, h => simp at h; omega

theorem drop_three (l : List Int) (v : Nat) (h : v + 2 < l.length) :
    l.drop v = l[v] :: l[v + 1] :: l[v + 2] :: l.drop (v + 3) := by
  rw [List.drop_eq_getElem_cons (by omega : v < l.length),
    List.drop_eq_getElem_cons (by omega : v + 1 < l.length),
    List.drop_eq_getElem_cons (by omega : v + 1 + 1 < l.length)]

theorem drop_two (l : List Int) (v : Nat) (h : v + 1 < l.length) :
    l.drop v = l[v] :: l[v + 1] :: l.drop (v + 2) := by
  rw [List.drop_eq_getElem_cons (by omega : v < l.length),
    List.drop_eq_getElem_cons (by omega : v + 1 < l.length)]

/-- The strip loop visits the strip triples of the indices from the counter on. -/
theorem stripLoop_eq {F : Type} (verts : List (Vertex3D F)) (indexes : List Int) :
    ∀ (k v : Nat), indexes.length - v = k →
      stripLoop verts indexes (calcVMax indexes.length 2) v =
        runTriples verts (stripTriples (indexes.drop v)) := by
  intro k
  induction k with
  | zero =>
    intro v h
    rw [stripLoop, if_neg (by rw [calcVMax_eq]; omega),
      List.drop_eq_nil_of_le (by omega)]
    rfl
  | succ k ih =>
    intro v h
    by_cases hv : v + 2 < indexes.length
    · rw [stripLoop, if_pos (by rw [calcVMax_eq]; omega),
        stripBody_eq verts indexes v _ _ _ (List.getElem?_eq_getElem (by omega))
          (List.getElem?_eq_getElem (by omega)) (List.getElem?_eq_getElem hv),
        ih (v + 1) (by omega), drop_three indexes v hv, drop_two indexes (v + 1) hv]
      simp only [stripTriples, runTriples]
    · rw [stripLoop, if_neg (by rw [calcVMax_eq]; omega),
        stripTriples_short _ (by rw [List.length_drop]; omega)]
      rfl

/-- The triangle-list loop visits the list triples of the indices from the counter on. -/
theorem trianglesLoop_eq {F : Type} (verts : List (Vertex3D F)) (indexes : List Int) :
    ∀ (k v : Nat), indexes.length - v = k →
      trianglesLoop verts indexes (calcVMax indexes.length 2) v =
        runTriples verts (listTriples (indexes.drop v)) := by
  intro k
  induction k using Nat.strong_induction_on with
  | _ k ih =>
    intro v h
    by_cases hv : v + 2 < indexes.length
    · rw [trianglesLoop, if_pos (by rw [calcVMax_eq]; omega),
        stripBody_eq verts indexes v _ _ _ (List.getElem?_eq_getElem (by omega))
          (List.getElem?_eq_getElem (by omega)) (List.getElem?_eq_getElem hv),
        ih (indexes.length - (v + 3)) (by omega) (v + 3) rfl, drop_three indexes v hv]
      simp only [listTriples, runTriples]
    · rw [trianglesLoop, if_neg (by rw [calcVMax_eq]; omega),
        listTriples_short _ (by rw [List.length_drop]; omega)]
      rfl

/-- The fan loop visits the fan triples of the indices from the counter on. -/
theorem fanLoop_eq {F : Type} (verts : List (Vertex3D F)) (apex : Int) (indexes : List Int) :
    ∀ (k v : Nat), indexes.length - v = k →
      fanLoop verts apex indexes (calcVMax indexes.length 1) v =
        runTriples verts (fanTriples apex (indexes.drop v)) := by
  intro k
  induction k with
  | zero =>
    intro v h
    rw [fanLoop, if_neg (by rw [calcVMax_eq]; omega),
      List.drop_eq_nil_of_le (by omega)]
    rfl
  | succ k ih =>
    intro v h
    by_cases hv : v + 1 < indexes.length
    · rw [fanLoop, if_pos (by rw [calcVMax_eq]; omega),
        fanBody_eq verts indexes v apex _ _ (List.getElem?_eq_getElem (by omega))
          (List.getElem?_eq_getElem hv),
        ih (v + 1) (by omega), drop_two indexes v hv,
        List.drop_eq_getElem_cons (by omega : v + 1 < indexes.length)]
      simp only [fanTriples, runTriples]
    · rw [fanLoop, if_neg (by rw [calcVMax_eq]; omega),
        fanTriples_short _ _ (by rw [List.length_drop]; omega)]
      rfl

/-- The traversal of one group: the fault of `front()` on an empty fan group, otherwise the
visit of the group's index triples. -/
theorem forEachTriangleGroup_eq {F M : Type} (g : Geometry3D F M) (grp : Indexes3D) :
    forEachTriangleGroup g grp = runGroup g grp := by
  unfold forEachTriangleGroup runGroup groupTriples fanGroupTriples
  by_cases hf : grp.type = g.triangleFan
  · rw [if_pos hf]
    cases hidx : grp.indexes with
    | nil =>
      rw [if_pos ⟨hf, rfl⟩]
      rfl
    | cons apex rest =>
      rw [if_neg (by simp), if_pos hf]
      simp only [front]
      rw [fanLoop_eq g.verts apex (apex :: rest) _ 1 rfl]
      rfl
  · have hnot : ¬ (grp.type = g.triangleFan ∧ grp.indexes = []) := fun h => hf h.1
    rw [if_neg hf, if_neg hnot, if_neg hf]
    by_cases hs : grp.type = g.triangleStrip
    · rw [if_pos hs, if_pos hs]
      simpa using stripLoop_eq g.verts grp.indexes _ 0 rfl
    · rw [if_neg hs, if_neg hs]
      by_cases ht : grp.type = g.triangles
      · rw [if_pos ht, if_pos ht]
        simpa using trianglesLoop_eq g.verts grp.indexes _ 0 rfl
      · rw [if_neg ht, if_neg ht]
        rfl

/-- A group that is not an empty fan group visits its index triples. -/
theorem forEachTriangleGroup_eq_run {F M : Type} (g : Geometry3D F M) (grp : Indexes3D)
    (hne : grp.type = g.triangleFan → grp.indexes ≠ []) :
    forEachTriangleGroup g grp = runTriples g.verts (groupTriples g grp) := by
  rw [forEachTriangleGroup_eq, runGroup, if_neg (fun h => hne h.1 h.2)]

/-! ### Shape of the triple lists -/

theorem stripTriples_length : ∀ l : List Int, (stripTriples l).length = l.length - 2
  | [] => rfl
  | [_] => rfl
  | [_, _] => rfl
  | _ :: b :: c :: rest => by
    have ih := stripTriples_length (b :: c :: rest)
    simp only [stripTriples, List.length_cons] at ih ⊢
    omega

theorem fanTriples_length (apex : Int) : ∀ l : List Int,
    (fanTriples apex l).length = l.length - 1
  | [] => rfl
  | [_] => rfl
  | _ :: c :: rest => by
    have ih := fanTriples_length apex (c :: rest)
    simp only [fanTriples, List.length_cons] at ih ⊢
    omega

theorem listTriples_length : ∀ l : List Int, (listTriples l).length = l.length / 3
  | [] => rfl
  | [_] => by simp [listTriples]
  | [_, _] => by simp [listTriples]
  | _ :: _ :: _ :: rest => by
    have ih := listTriples_length rest
    simp only [listTriples, List.length_cons] at ih ⊢
    omega

theorem stripTriples_getElem? : ∀ (l : List Int) (i : Nat) (h : i + 2 < l.length),
    (stripTriples l)[i]? = some (l[i], l[i + 1], l[i + 2])
  | [], _, h => by simp at h
  | [_], _, h => by simp at h
  | [_, _], _, h => by simp at h
  | _ :: _ :: _ :: _, 0, _ => by simp [stripTriples]
  | _ :: b :: c :: rest, i + 1, h => by
    have ih := stripTriples_getElem? (b :: c :: rest) i (by simpa using h)
    simpa [stripTriples] using ih

theorem fanTriples_getElem? (apex : Int) : ∀ (l : List Int) (i : Nat) (h : i + 1 < l.length),
    (fanTriples apex l)[i]? = some (apex, l[i], l[i + 1])
  | [], _, h => by simp at h
  | [_], _, h => by simp at h
  | _ :: _ :: _, 0, _ => by simp [fanTriples]
  | _ :: c :: rest, i + 1, h => by
    have ih := fanTriples_getElem? apex (c :: rest) i (by simpa using h)
    simpa [fanTriples] using ih

theorem listTriples_getElem? : ∀ (l : List Int) (k : Nat) (h : 3 * k + 2 < l.length),
    (listTriples l)[k]? = some (l[3 * k], l[3 * k + 1], l[3 * k + 2])
  | [], _, h => by simp at h
  | [_], _, h => by simp at h
  | [_, _], _, h => by simp at h
  | _ :: _ :: _ :: _, 0, _ => by simp [listTriples]
  | a :: b :: c :: rest, k + 1, h => by
    have h2 : 3 * k + 2 < rest.length := by simp at h; omega
    have ih := listTriples_getElem? rest k h2
    have e0 : (a :: b :: c :: rest)[3 * (k + 1)] = rest[3 * k] := by
      simp [show 3 * (k + 1) = 3 * k + 1 + 1 + 1 by ring]
    have e1 : (a :: b :: c :: rest)[3 * (k + 1) + 1] = rest[3 * k + 1] := by
      simp [show 3 * (k + 1) + 1 = (3 * k + 1) + 1 + 1 + 1 by ring]
    have e2 : (a :: b :: c :: rest)[3 * (k + 1) + 2] = rest[3 * k + 2] := by
      simp [show 3 * (k + 1) + 2 = (3 * k + 2) + 1 + 1 + 1 by ring]
    rw [e0, e1, e2]
    simpa [listTriples] using ih

/-! ### Which indices occur in the triples -/

theorem getElem?_lt {l : List Int} {pos : Nat} {i : Int} (h : l[pos]? = some i) :
    pos < l.length := by
  obtain ⟨hlt, -⟩ := List.getElem?_eq_some_iff.1 h
  exact hlt

theorem getElem_eq_of_getElem? {l : List Int} {pos : Nat} {i : Int} (h : l[pos]? = some i)
    (hlt : pos < l.length) : l[pos] = i := by
  obtain ⟨_, e⟩ := List.getElem?_eq_some_iff.1 h
  exact e

theorem stripTriples_exists_iff (P : Int → Prop) (l : List Int) :
    (∃ t ∈ stripTriples l, P t.1 ∨ P t.2.1 ∨ P t.2.2) ↔
      (3 ≤ l.length ∧ ∃ (pos : Nat) (i : Int), l[pos]? = some i ∧ P i) := by
  constructor
  · rintro ⟨t, ht, hP⟩
    obtain ⟨k, hk⟩ := List.mem_iff_getElem?.1 ht
    obtain ⟨hklt, -⟩ := List.getElem?_eq_some_iff.1 hk
    rw [stripTriples_length] at hklt
    have h2 : k + 2 < l.length := by omega
    rw [stripTriples_getElem? l k h2] at hk
    have e : t = (l[k], l[k + 1], l[k + 2]) := (Option.some.inj hk).symm
    subst e
    refine ⟨by omega, ?_⟩
    rcases hP with h | h | h
    · exact ⟨k, _, List.getElem?_eq_getElem (by omega), h⟩
    · exact ⟨k + 1, _, List.getElem?_eq_getElem (by omega), h⟩
    · exact ⟨k + 2, _, List.getElem?_eq_getElem h2, h⟩
  · rintro ⟨h3, pos, i, hpos, hP⟩
    have hlt := getElem?_lt hpos
    have key : ∀ k : Nat, ∀ h2 : k + 2 < l.length, (k = pos ∨ k + 1 = pos ∨ k + 2 = pos) →
        ∃ t ∈ stripTriples l, P t.1 ∨ P t.2.1 ∨ P t.2.2 := by
      intro k h2 hk
      refine ⟨(l[k], l[k + 1], l[k + 2]),
        List.mem_iff_getElem?.2 ⟨k, stripTriples_getElem? l k h2⟩, ?_⟩
      rcases hk with e | e | e
      · subst e; left; rw [getElem_eq_of_getElem? hpos]; exact hP
      · subst e; right; left; rw [getElem_eq_of_getElem? hpos]; exact hP
      · subst e; right; right; rw [getElem_eq_of_getElem? hpos]; exact hP
    by_cases hc : pos + 2 < l.length
    · exact key pos hc (Or.inl rfl)
    · by_cases hc2 : pos + 1 < l.length
      · exact key (pos - 1) (by omega) (Or.inr (Or.inl (by omega)))
      · exact key (pos - 2) (by omega) (Or.inr (Or.inr (by omega)))

theorem fanTriples_exists_iff (P : Int → Prop) (apex : Int) (l : List Int) :
    (∃ t ∈ fanTriples apex l, P t.1 ∨ P t.2.1 ∨ P t.2.2) ↔
      (2 ≤ l.length ∧ (P apex ∨ ∃ (pos : Nat) (i : Int), l[pos]? = some i ∧ P i)) := by
  constructor
  · rintro ⟨t, ht, hP⟩
    obtain ⟨k, hk⟩ := List.mem_iff_getElem?.1 ht
    obtain ⟨hklt, -⟩ := List.getElem?_eq_some_iff.1 hk
    rw [fanTriples_length] at hklt
    have h2 : k + 1 < l.length := by omega
    rw [fanTriples_getElem? apex l k h2] at hk
    have e : t = (apex, l[k], l[k + 1]) := (Option.some.inj hk).symm
    subst e
    refine ⟨by omega, ?_⟩
    rcases hP with h | h | h
    · exact Or.inl h
    · exact Or.inr ⟨k, _, List.getElem?_eq_getElem (by omega), h⟩
    · exact Or.inr ⟨k + 1, _, List.getElem?_eq_getElem h2, h⟩
  · rintro ⟨h2, hP | ⟨pos, i, hpos, hP⟩⟩
    · exact ⟨(apex, l[0], l[0 + 1]),
        List.mem_iff_getElem?.2 ⟨0, fanTriples_getElem? apex l 0 (by omega)⟩, Or.inl hP⟩
    · have hlt := getElem?_lt hpos
      have key : ∀ k : Nat, ∀ h1 : k + 1 < l.length, (k = pos ∨ k + 1 = pos) →
          ∃ t ∈ fanTriples apex l, P t.1 ∨ P t.2.1 ∨ P t.2.2 := by
        intro k h1 hk
        refine ⟨(apex, l[k], l[k + 1]),
          List.mem_iff_getElem?.2 ⟨k, fanTriples_getElem? apex l k h1⟩, ?_⟩
        rcases hk with e | e
        · subst e; right; left; rw [getElem_eq_of_getElem? hpos]; exact hP
        · subst e; right; right; rw [getElem_eq_of_getElem? hpos]; exact hP
      by_cases hc : pos + 1 < l.length
      · exact key pos hc (Or.inl rfl)
      · exact key (pos - 1) (by omega) (Or.inr (by omega))

theorem listTriples_exists_iff (P : Int → Prop) (l : List Int) :
    (∃ t ∈ listTriples l, P t.1 ∨ P t.2.1 ∨ P t.2.2) ↔
      ∃ (pos : Nat) (i : Int), l[pos]? = some i ∧ pos < 3 * (l.length / 3) ∧ P i := by
  constructor
  · rintro ⟨t, ht, hP⟩
    obtain ⟨k, hk⟩ := List.mem_iff_getElem?.1 ht
    obtain ⟨hklt, -⟩ := List.getElem?_eq_some_iff.1 hk
    rw [listTriples_length] at hklt
    have h2 : 3 * k + 2 < l.length := by omega
    rw [listTriples_getElem? l k h2] at hk
    have e : t = (l[3 * k], l[3 * k + 1], l[3 * k + 2]) := (Option.some.inj hk).symm
    subst e
    rcases hP with h | h | h
    · exact ⟨3 * k, _, List.getElem?_eq_getElem (by omega), by omega, h⟩
    · exact ⟨3 * k + 1, _, List.getElem?_eq_getElem (by omega), by omega, h⟩
    · exact ⟨3 * k + 2, _, List.getElem?_eq_getElem h2, by omega, h⟩
  · rintro ⟨pos, i, hpos, hlt3, hP⟩
    have hlt := getElem?_lt hpos
    have h2 : 3 * (pos / 3) + 2 < l.length := by omega
    refine ⟨(l[3 * (pos / 3)], l[3 * (pos / 3) + 1], l[3 * (pos / 3) + 2]),
      List.mem_iff_getElem?.2 ⟨pos / 3, listTriples_getElem? l (pos / 3) h2⟩, ?_⟩
    have hmod : pos % 3 = 0 ∨ pos % 3 = 1 ∨ pos % 3 = 2 := by omega
    rcases hmod with e | e | e
    · have e2 : 3 * (pos / 3) = pos := by omega
      left
      have : l[3 * (pos / 3)]? = some i := by rw [e2]; exact hpos
      rw [getElem_eq_of_getElem? this]; exact hP
    · have e2 : 3 * (pos / 3) + 1 = pos := by omega
      right; left
      have : l[3 * (pos / 3) + 1]? = some i := by rw [e2]; exact hpos
      rw [getElem_eq_of_getElem? this]; exact hP
    · have e2 : 3 * (pos / 3) + 2 = pos := by omega
      right; right
      have : l[3 * (pos / 3) + 2]? = some i := by rw [e2]; exact hpos
      rw [getElem_eq_of_getElem? this]; exact hP

theorem fanGroupTriples_length (l : List Int) : (fanGroupTriples l).length = l.length - 2 := by
  cases l with
  | nil => rfl
  | cons apex rest => simp only [fanGroupTriples, fanTriples_length, List.length_cons]; omega

theorem fanGroupTriples_getElem? (l : List Int) (i : Nat) (h1 : 1 ≤ i) (h : i + 1 < l.length) :
    (fanGroupTriples l)[i - 1]? = some (l[0], l[i], l[i + 1]) := by
  match l, i, h1, h with
  | [], _, _, h => simp at h
  | apex :: rest, k + 1, _, h =>
    have h2 : k + 1 < rest.length := by simpa using h
    simpa [fanGroupTriples] using fanTriples_getElem? apex rest k h2

theorem fanGroupTriples_exists_iff (P : Int → Prop) (l : List Int) :
    (∃ t ∈ fanGroupTriples l, P t.1 ∨ P t.2.1 ∨ P t.2.2) ↔
      (3 ≤ l.length ∧ ∃ (pos : Nat) (i : Int), l[pos]? = some i ∧ P i) := by
  cases l with
  | nil => simp [fanGroupTriples]
  | cons apex rest =>
    simp only [fanGroupTriples, fanTriples_exists_iff, List.length_cons]
    constructor
    · rintro ⟨h2, hP | ⟨pos, i, hpos, hP⟩⟩
      · exact ⟨by omega, 0, apex, by simp, hP⟩
      · exact ⟨by omega, pos + 1, i, by simpa using hpos, hP⟩
    · rintro ⟨h3, pos, i, hpos, hP⟩
      refine ⟨by omega, ?_⟩
      cases pos with
      | zero =>
        have e : apex = i := by simpa using hpos
        exact Or.inl (e ▸ hP)
      | succ k => exact Or.inr ⟨k, i, by simpa using hpos, hP⟩

theorem listTriples_take : ∀ l : List Int,
    listTriples (l.take (3 * (l.length / 3))) = listTriples l
  | [] => rfl
  | [_] => by simp [listTriples]
  | [_, _] => by simp [listTriples]
  | a :: b :: c :: rest => by
    have e : 3 * ((a :: b :: c :: rest).length / 3) = 3 * (rest.length / 3) + 1 + 1 + 1 := by
      simp only [List.length_cons]; omega
    rw [e]
    simp only [List.take_succ_cons, listTriples, listTriples_take rest]

theorem groupTriples_exists_iff {F M : Type} (g : Geometry3D F M) (grp : Indexes3D)
    (P : Int → Prop) :
    (∃ t ∈ groupTriples g grp, P t.1 ∨ P t.2.1 ∨ P t.2.2) ↔
      ∃ (pos : Nat) (i : Int), grp.indexes[pos]? = some i ∧
        (((grp.type = g.triangleFan ∨ grp.type = g.triangleStrip) ∧ 3 ≤ grp.indexes.length) ∨
          (grp.type = g.triangles ∧ pos < 3 * (grp.indexes.length / 3))) ∧ P i := by
  have hlen : ∀ pos : Nat, pos < 3 * (grp.indexes.length / 3) → 3 ≤ grp.indexes.length := by
    intro pos h; omega
  unfold groupTriples
  by_cases hf : grp.type = g.triangleFan
  · rw [if_pos hf, fanGroupTriples_exists_iff]
    constructor
    · rintro ⟨h3, pos, i, hpos, hP⟩
      exact ⟨pos, i, hpos, Or.inl ⟨Or.inl hf, h3⟩, hP⟩
    · rintro ⟨pos, i, hpos, h | h, hP⟩
      · exact ⟨h.2, pos, i, hpos, hP⟩
      · exact ⟨hlen pos h.2, pos, i, hpos, hP⟩
  · rw [if_neg hf]
    by_cases hs : grp.type = g.triangleStrip
    · rw [if_pos hs, stripTriples_exists_iff]
      constructor
      · rintro ⟨h3, pos, i, hpos, hP⟩
        exact ⟨pos, i, hpos, Or.inl ⟨Or.inr hs, h3⟩, hP⟩
      · rintro ⟨pos, i, hpos, h | h, hP⟩
        · exact ⟨h.2, pos, i, hpos, hP⟩
        · exact ⟨hlen pos h.2, pos, i, hpos, hP⟩
    · rw [if_neg hs]
      by_cases ht : grp.type = g.triangles
      · rw [if_pos ht, listTriples_exists_iff]
        constructor
        · rintro ⟨pos, i, hpos, hlt, hP⟩
          exact ⟨pos, i, hpos, Or.inr ⟨ht, hlt⟩, hP⟩
        · rintro ⟨pos, i, hpos, h | h, hP⟩
          · rcases h.1 with h | h
            · exact absurd h hf
            · exact absurd h hs
          · exact ⟨pos, i, hpos, h.2, hP⟩
      · rw [if_neg ht]
        constructor
        · rintro ⟨t, ht2, -⟩
          simp at ht2
        · rintro ⟨pos, i, hpos, h | h, hP⟩
          · rcases h.1 with h | h
            · exact absurd h hf
            · exact absurd h hs
          · exact absurd h.1 ht

theorem validTriple_of_not_exists {F : Type} (verts : List (Vertex3D F))
    (ts : List (Int × Int × Int))
    (h : ¬ ∃ t ∈ ts, ¬ ValidIndex verts t.1 ∨ ¬ ValidIndex verts t.2.1 ∨
      ¬ ValidIndex verts t.2.2) :
    ∀ t ∈ ts, ValidTriple verts t := by
  intro t ht
  by_contra hv
  apply h
  refine ⟨t, ht, ?_⟩
  unfold ValidTriple at hv
  by_cases h1 : ValidIndex verts t.1
  · by_cases h2 : ValidIndex verts t.2.1
    · exact Or.inr (Or.inr (fun h3 => hv ⟨h1, h2, h3⟩))
    · exact Or.inr (Or.inl h2)
  · exact Or.inl h1

theorem not_validTriple_iff {F : Type} (verts : List (Vertex3D F)) (t : Int × Int × Int) :
    ¬ ValidTriple verts t ↔
      (¬ ValidIndex verts t.1 ∨ ¬ ValidIndex verts t.2.1 ∨ ¬ ValidIndex verts t.2.2) := by
  unfold ValidTriple
  constructor
  · intro hv
    by_cases h1 : ValidIndex verts t.1
    · by_cases h2 : ValidIndex verts t.2.1
      · exact Or.inr (Or.inr (fun h3 => hv ⟨h1, h2, h3⟩))
      · exact Or.inr (Or.inl h2)
    · exact Or.inl h1
  · rintro (h | h | h) ⟨h1, h2, h3⟩
    · exact h h1
    · exact h h2
    · exact h h3

/-! ### Vertex reads -/

theorem vertsAt_valid {F : Type} (verts : List (Vertex3D F)) (i : Int)
    (h : ValidIndex verts i) :
    ∃ p, verts[i.toNat]? = some p ∧ vertsAt verts i = .ok p := by
  obtain ⟨h0, h1⟩ := h
  have hlt : i.toNat < verts.length := by omega
  refine ⟨verts[i.toNat], List.getElem?_eq_getElem hlt, ?_⟩
  simp [vertsAt, h0, List.getElem?_eq_getElem hlt]

theorem vertsAt_invalid {F : Type} (verts : List (Vertex3D F)) (i : Int)
    (h : ¬ ValidIndex verts i) : vertsAt verts i = .error .vertsAt := by
  unfold vertsAt
  split
  · rename_i h0
    have hge : verts.length ≤ i.toNat := by
      by_contra hlt
      exact h ⟨h0, by omega⟩
    rw [List.getElem?_eq_none hge]
  · rfl

theorem triangleOf_valid {F : Type} (verts : List (Vertex3D F)) (t : Int × Int × Int)
    (h : ValidTriple verts t) :
    ∃ p q r, verts[t.1.toNat]? = some p ∧ verts[t.2.1.toNat]? = some q ∧
      verts[t.2.2.toNat]? = some r ∧ triangleOf verts t = .ok (p.vert, q.vert, r.vert) := by
  obtain ⟨ha, hb, hc⟩ := h
  obtain ⟨p, hp, hp2⟩ := vertsAt_valid verts _ ha
  obtain ⟨q, hq, hq2⟩ := vertsAt_valid verts _ hb
  obtain ⟨r, hr, hr2⟩ := vertsAt_valid verts _ hc
  refine ⟨p, q, r, hp, hq, hr, ?_⟩
  simp [triangleOf, hp2, hq2, hr2, bind, Except.bind, pure, Except.pure]

theorem triangleOf_invalid {F : Type} (verts : List (Vertex3D F)) (t : Int × Int × Int)
    (h : ¬ ValidTriple verts t) : triangleOf verts t = .error .vertsAt := by
  unfold triangleOf
  by_cases ha : ValidIndex verts t.1
  · obtain ⟨p, -, hp2⟩ := vertsAt_valid verts _ ha
    by_cases hb : ValidIndex verts t.2.1
    · obtain ⟨q, -, hq2⟩ := vertsAt_valid verts _ hb
      have hc : ¬ ValidIndex verts t.2.2 := fun hc => h ⟨ha, hb, hc⟩
      simp [hp2, hq2, vertsAt_invalid verts _ hc, bind, Except.bind]
    · simp [hp2, vertsAt_invalid verts _ hb, bind, Except.bind]
  · simp [vertsAt_invalid verts _ ha, bind, Except.bind]

/-! ### Runs over triple lists -/

theorem runTriples_cons_valid {F : Type} (verts : List (Vertex3D F)) (t : Int × Int × Int)
    (ts : List (Int × Int × Int)) (h : ValidTriple verts t) :
    ∃ p q r, verts[t.1.toNat]? = some p ∧ verts[t.2.1.toNat]? = some q ∧
      verts[t.2.2.toNat]? = some r ∧
      runTriples verts (t :: ts) = Visits.call (p.vert, q.vert, r.vert) (runTriples verts ts) := by
  obtain ⟨p, q, r, hp, hq, hr, ht⟩ := triangleOf_valid verts t h
  exact ⟨p, q, r, hp, hq, hr, by simp [runTriples, ht]⟩

theorem runTriples_cons_invalid {F : Type} (verts : List (Vertex3D F)) (t : Int × Int × Int)
    (ts : List (Int × Int × Int)) (h : ¬ ValidTriple verts t) :
    runTriples verts (t :: ts) = Visits.throw .vertsAt := by
  simp [runTriples, triangleOf_invalid verts t h]

theorem runTriples_all_valid {F : Type} (verts : List (Vertex3D F)) :
    ∀ ts : List (Int × Int × Int), (∀ t ∈ ts, ValidTriple verts t) →
      (runTriples verts ts).fault = none ∧ (runTriples verts ts).calls.length = ts.length
  | [], _ => ⟨rfl, rfl⟩
  | t :: ts, h => by
    obtain ⟨p, q, r, -, -, -, e⟩ := runTriples_cons_valid verts t ts (h t (by simp))
    obtain ⟨ih1, ih2⟩ := runTriples_all_valid verts ts (fun u hu => h u (by simp [hu]))
    rw [e]
    exact ⟨ih1, by simp [Visits.call, ih2]⟩

theorem runTriples_calls_getElem? {F : Type} (verts : List (Vertex3D F)) :
    ∀ (ts : List (Int × Int × Int)) (i : Nat) (t : Int × Int × Int),
      (∀ u ∈ ts, ValidTriple verts u) → ts[i]? = some t →
      ∃ p q r, verts[t.1.toNat]? = some p ∧ verts[t.2.1.toNat]? = some q ∧
        verts[t.2.2.toNat]? = some r ∧
        (runTriples verts ts).calls[i]? = some (p.vert, q.vert, r.vert)
  | [], _, _, _, h => by simp at h
  | u :: ts, 0, t, hv, h => by
    have hut : u = t := by simpa using h
    subst hut
    obtain ⟨p, q, r, hp, hq, hr, e⟩ := runTriples_cons_valid verts u ts (hv u (by simp))
    exact ⟨p, q, r, hp, hq, hr, by rw [e]; simp [Visits.call]⟩
  | u :: ts, i + 1, t, hv, h => by
    obtain ⟨p, q, r, -, -, -, e⟩ := runTriples_cons_valid verts u ts (hv u (by simp))
    obtain ⟨p2, q2, r2, hp, hq, hr, ih⟩ :=
      runTriples_calls_getElem? verts ts i t (fun w hw => hv w (by simp [hw])) (by simpa using h)
    exact ⟨p2, q2, r2, hp, hq, hr, by rw [e]; simpa [Visits.call] using ih⟩

theorem runTriples_fault_cases {F : Type} (verts : List (Vertex3D F)) :
    ∀ ts : List (Int × Int × Int),
      ((runTriples verts ts).fault = none ∧ ∀ t ∈ ts, ValidTriple verts t) ∨
      ((runTriples verts ts).fault = some .vertsAt ∧ ∃ t ∈ ts, ¬ ValidTriple verts t)
  | [] => Or.inl ⟨rfl, by simp⟩
  | t :: ts => by
    by_cases h : ValidTriple verts t
    · obtain ⟨p, q, r, -, -, -, e⟩ := runTriples_cons_valid verts t ts h
      rw [e]
      rcases runTriples_fault_cases verts ts with ⟨h1, h2⟩ | ⟨h1, u, hu, h2⟩
      · exact Or.inl ⟨h1, by simpa [h] using h2⟩
      · exact Or.inr ⟨h1, u, by simp [hu], h2⟩
    · rw [runTriples_cons_invalid verts t ts h]
      exact Or.inr ⟨rfl, t, by simp, h⟩

theorem runTriples_calls_takeWhile {F : Type} (verts : List (Vertex3D F)) :
    ∀ ts : List (Int × Int × Int),
      (runTriples verts ts).calls =
        (runTriples verts (ts.takeWhile (fun t => decide (ValidTriple verts t)))).calls
  | [] => rfl
  | t :: ts => by
    by_cases h : ValidTriple verts t
    · obtain ⟨p, q, r, -, -, -, ht⟩ := triangleOf_valid verts t h
      have ih := runTriples_calls_takeWhile verts ts
      rw [List.takeWhile_cons_of_pos (by simpa using h)]
      simp only [runTriples, ht, Visits.call, ih]
    · rw [List.takeWhile_cons_of_neg (by simpa using h), runTriples_cons_invalid verts t ts h]
      rfl

theorem runTriples_append {F : Type} (verts : List (Vertex3D F)) :
    ∀ ts us : List (Int × Int × Int),
      runTriples verts (ts ++ us) = (runTriples verts ts).andThen (runTriples verts us)
  | [], us => by simp [runTriples, Visits.andThen, Visits.done]
  | t :: ts, us => by
    have ih := runTriples_append verts ts us
    rw [List.cons_append]
    simp only [runTriples]
    cases triangleOf verts t with
    | error e => simp [Visits.andThen, Visits.throw]
    | ok tri =>
      simp only []
      rw [ih]
      cases hf : (runTriples verts ts).fault <;> simp [Visits.andThen, Visits.call, hf]

theorem forEachTriangleFrom_eq_runGroups {F M : Type} (g : Geometry3D F M) :
    ∀ groups : List Indexes3D, forEachTriangleFrom g groups = runGroups g groups
  | [] => rfl
  | grp :: rest => by
    rw [forEachTriangleFrom, forEachTriangleGroup_eq, forEachTriangleFrom_eq_runGroups g rest,
      runGroups]

theorem forEachTriangle_eq_runGroups {F M : Type} (g : Geometry3D F M) :
    forEachTriangle g = runGroups g g.indexes :=
  forEachTriangleFrom_eq_runGroups g g.indexes

theorem runGroups_eq_runTriples {F M : Type} (g : Geometry3D F M) :
    ∀ groups : List Indexes3D,
      (∀ grp ∈ groups, grp.type = g.triangleFan → grp.indexes ≠ []) →
      runGroups g groups = runTriples g.verts (groups.flatMap (groupTriples g))
  | [], _ => rfl
  | grp :: rest, hne => by
    rw [runGroups, runGroup, if_neg (fun h => hne grp (by simp) h.1 h.2),
      runGroups_eq_runTriples g rest (fun x hx => hne x (by simp [hx])),
      List.flatMap_cons, runTriples_append]

theorem forEachTriangleFrom_eq {F M : Type} (g : Geometry3D F M) (groups : List Indexes3D)
    (hne : ∀ grp ∈ groups, grp.type = g.triangleFan → grp.indexes ≠ []) :
    forEachTriangleFrom g groups = runTriples g.verts (groups.flatMap (groupTriples g)) := by
  rw [forEachTriangleFrom_eq_runGroups, runGroups_eq_runTriples g groups hne]

/-- A mesh without an empty fan group visits its index triples. -/
theorem forEachTriangle_eq {F M : Type} (g : Geometry3D F M)
    (hne : ∀ grp ∈ g.indexes, grp.type = g.triangleFan → grp.indexes ≠ []) :
    forEachTriangle g = runTriples g.verts (meshTriples g) :=
  forEachTriangleFrom_eq g g.indexes hne

/-! ### Whole meshes -/

theorem groupTriples_length {F M : Type} (g : Geometry3D F M) (grp : Indexes3D) :
    (groupTriples g grp).length =
      if grp.type = g.triangleFan then grp.indexes.length - 2
      else if grp.type = g.triangleStrip then grp.indexes.length - 2
      else if grp.type = g.triangles then grp.indexes.length / 3
      else 0 := by
  unfold groupTriples
  split
  · exact fanGroupTriples_length _
  · split
    · exact stripTriples_length _
    · split
      · exact listTriples_length _
      · rfl

theorem flatMap_groupTriples_valid {F M : Type} (g : Geometry3D F M) (groups : List Indexes3D)
    (h : ∀ grp ∈ groups, ∀ i ∈ grp.indexes, 0 ≤ i ∧ i < g.verts.length) :
    ∀ t ∈ groups.flatMap (groupTriples g), ValidTriple g.verts t := by
  intro t ht
  obtain ⟨grp, hgrp, htg⟩ := List.mem_flatMap.1 ht
  refine validTriple_of_not_exists g.verts (groupTriples g grp) ?_ t htg
  intro hex
  obtain ⟨pos, i, hpos, -, hP⟩ :=
    (groupTriples_exists_iff g grp (fun i => ¬ ValidIndex g.verts i)).1 hex
  exact hP (h grp hgrp i (List.mem_iff_getElem?.2 ⟨pos, hpos⟩))

theorem forEachTriangle_with_indexes {F M : Type} (g : Geometry3D F M)
    (groups : List Indexes3D)
    (hne : ∀ grp ∈ groups, grp.type = g.triangleFan → grp.indexes ≠ []) :
    forEachTriangle { g with indexes := groups } =
      runTriples g.verts (groups.flatMap (groupTriples g)) :=
  forEachTriangleFrom_eq { g with indexes := groups } groups hne

/-- A worked run: a fan, a triangle list with two out-of-range leftovers, a strip whose third
index is out of range, and a group that is not reached. -/
theorem forEachTriangle_example :
    forEachTriangle (squareMesh [⟨6, [0, 1, 2, 3]⟩, ⟨4, [0, 1, 2, 7, -1]⟩, ⟨5, [1, 2, 9]⟩,
        ⟨4, [0, 0, 0]⟩]) =
      ⟨[(⟨0, 0, 0⟩, ⟨1, 0, 0⟩, ⟨1, 1, 0⟩), (⟨0, 0, 0⟩, ⟨1, 1, 0⟩, ⟨0, 1, 0⟩),
        (⟨0, 0, 0⟩, ⟨1, 0, 0⟩, ⟨1, 1, 0⟩)], some Fault.vertsAt⟩ := by
  rw [forEachTriangle_eq_runGroups]
  decide

theorem forEachTriangleGroup_of_ne {F M : Type} (g : Geometry3D F M) (grp : Indexes3D)
    (hfan : grp.type ≠ g.triangleFan) (hstrip : grp.type ≠ g.triangleStrip)
    (htri : grp.type ≠ g.triangles) : forEachTriangleGroup g grp = ⟨[], none⟩ := by
  unfold forEachTriangleGroup
  rw [if_neg hfan, if_neg hstrip, if_neg htri]
  rfl

/-! ### Equality operators -/

theorem vectorEq_iff {α : Type} (eq : α → α → Bool) (h : ∀ a b, eq a b = true ↔ a = b) :
    ∀ l₁ l₂ : List α, vectorEq eq l₁ l₂ = true ↔ l₁ = l₂
  | [], [] => by simp [vectorEq]
  | [], _ :: _ => by simp [vectorEq]
  | _ :: _, [] => by simp [vectorEq]
  | a :: as, b :: bs => by
    simp [vectorEq, h a b, vectorEq_iff eq h as bs]

theorem vectorEq_self {α : Type} (eq : α → α → Bool) :
    ∀ l : List α, (∀ a ∈ l, eq a a = true) → vectorEq eq l l = true
  | [], _ => rfl
  | a :: as, h => by
    simp [vectorEq, h a (by simp), vectorEq_self eq as (fun b hb => h b (by simp [hb]))]

theorem vectorEq_append {α : Type} (eq : α → α → Bool) :
    ∀ l₁ l₂ m₁ m₂ : List α, vectorEq eq l₁ l₂ = true → vectorEq eq m₁ m₂ = true →
      vectorEq eq (l₁ ++ m₁) (l₂ ++ m₂) = true
  | [], [], _, _, _, hm => by simpa using hm
  | [], _ :: _, _, _, hl, _ => by simp [vectorEq] at hl
  | _ :: _, [], _, _, hl, _ => by simp [vectorEq] at hl
  | a :: as, b :: bs, m₁, m₂, hl, hm => by
    simp only [vectorEq, Bool.and_eq_true] at hl
    simp [vectorEq, hl.1, vectorEq_append eq as bs m₁ m₂ hl.2 hm]

theorem vectorEq_getElem? {α : Type} (eq : α → α → Bool) :
    ∀ (l₁ l₂ : List α), vectorEq eq l₁ l₂ = true → ∀ n : Nat,
      (l₁[n]? = none ∧ l₂[n]? = none) ∨
        ∃ p q, l₁[n]? = some p ∧ l₂[n]? = some q ∧ eq p q = true
  | [], [], _, n => Or.inl (by simp)
  | [], _ :: _, h, _ => by simp [vectorEq] at h
  | _ :: _, [], h, _ => by simp [vectorEq] at h
  | a :: as, b :: bs, h, 0 => by
    simp only [vectorEq, Bool.and_eq_true] at h
    exact Or.inr ⟨a, b, by simp, by simp, h.1⟩
  | a :: as, b :: bs, h, n + 1 => by
    simp only [vectorEq, Bool.and_eq_true] at h
    simpa using vectorEq_getElem? eq as bs h.2 n

theorem Indexes3D_operatorEq_iff (a b : Indexes3D) :
    Indexes3D.operatorEq a b = true ↔ a = b := by
  cases a; cases b
  simp [Indexes3D.operatorEq, vectorEq_iff (fun i j : Int => decide (i = j)) (by simp)]

theorem Vertex3D_operatorEq_iff {F : Type} (floatEq : F → F → Bool)
    (hexact : ∀ a b, floatEq a b = true ↔ a = b) (a b : Vertex3D F) :
    Vertex3D.operatorEq floatEq a b = true ↔ a = b := by
  obtain ⟨⟨a1, a2, a3⟩, ⟨a4, a5⟩, ⟨a6, a7, a8⟩⟩ := a
  obtain ⟨⟨b1, b2, b3⟩, ⟨b4, b5⟩, ⟨b6, b7, b8⟩⟩ := b
  simp [Vertex3D.operatorEq, vec3.operatorEq, vec2.operatorEq, hexact, and_assoc]

/-- The operator `==` of two meshes, field by field. -/
theorem Geometry3D_operatorEq_iff {F M : Type} (floatEq : F → F → Bool)
    (a b : Geometry3D F M) :
    Geometry3D.operatorEq floatEq a b = true ↔
      a.comments = b.comments ∧
      vectorEq (Vertex3D.operatorEq floatEq) a.verts b.verts = true ∧
      a.indexes = b.indexes ∧ a.triangleFan = b.triangleFan ∧
      a.triangleStrip = b.triangleStrip ∧ a.triangles = b.triangles := by
  simp [Geometry3D.operatorEq, and_assoc,
    vectorEq_iff (fun x y : String => decide (x = y)) (by simp),
    vectorEq_iff Indexes3D.operatorEq Indexes3D_operatorEq_iff]

theorem forEachTriangle_congr {F M : Type} (g h : Geometry3D F M) (hv : g.verts = h.verts)
    (hi : g.indexes = h.indexes) (hf : g.triangleFan = h.triangleFan)
    (hs : g.triangleStrip = h.triangleStrip) (ht : g.triangles = h.triangles) :
    forEachTriangle g = forEachTriangle h := by
  have hgrp : ∀ grp : Indexes3D, forEachTriangleGroup g grp = forEachTriangleGroup h grp := by
    intro grp
    unfold forEachTriangleGroup
    rw [hv, hf, hs, ht]
  have hfrom : ∀ groups : List Indexes3D,
      forEachTriangleFrom g groups = forEachTriangleFrom h groups := by
    intro groups
    induction groups with
    | nil => rfl
    | cons grp rest ih => rw [forEachTriangleFrom, forEachTriangleFrom, hgrp, ih]
  unfold forEachTriangle
  rw [hi, hfrom]

theorem vertsAt_agree {F : Type} (floatEq : F → F → Bool) (v₁ v₂ : List (Vertex3D F))
    (hv : vectorEq (Vertex3D.operatorEq floatEq) v₁ v₂ = true) (i : Int) :
    (vertsAt v₁ i = .error Fault.vertsAt ∧ vertsAt v₂ i = .error Fault.vertsAt) ∨
      ∃ p q, vertsAt v₁ i = .ok p ∧ vertsAt v₂ i = .ok q ∧
        Vertex3D.operatorEq floatEq p q = true := by
  unfold vertsAt
  by_cases h0 : 0 ≤ i
  · rw [if_pos h0, if_pos h0]
    rcases vectorEq_getElem? _ v₁ v₂ hv i.toNat with ⟨h1, h2⟩ | ⟨p, q, h1, h2, h3⟩
    · rw [h1, h2]
      exact Or.inl ⟨rfl, rfl⟩
    · rw [h1, h2]
      exact Or.inr ⟨p, q, rfl, rfl, h3⟩
  · rw [if_neg h0, if_neg h0]
    exact Or.inl ⟨rfl, rfl⟩

theorem triangleOf_agree {F : Type} (floatEq : F → F → Bool) (v₁ v₂ : List (Vertex3D F))
    (hv : vectorEq (Vertex3D.operatorEq floatEq) v₁ v₂ = true) (t : Int × Int × Int) :
    (∃ e, triangleOf v₁ t = .error e ∧ triangleOf v₂ t = .error e) ∨
      ∃ s u, triangleOf v₁ t = .ok s ∧ triangleOf v₂ t = .ok u ∧ callEq floatEq s u = true := by
  have hvert : ∀ p q : Vertex3D F, Vertex3D.operatorEq floatEq p q = true →
      vec3.operatorEq floatEq p.vert q.vert = true := by
    intro p q h
    simp only [Vertex3D.operatorEq, Bool.and_eq_true] at h
    exact h.1.1
  unfold triangleOf
  rcases vertsAt_agree floatEq v₁ v₂ hv t.1 with ⟨a1, a2⟩ | ⟨p1, q1, a1, a2, a3⟩
  · exact Or.inl ⟨Fault.vertsAt, by simp [a1, bind, Except.bind],
      by simp [a2, bind, Except.bind]⟩
  · rcases vertsAt_agree floatEq v₁ v₂ hv t.2.1 with ⟨b1, b2⟩ | ⟨p2, q2, b1, b2, b3⟩
    · exact Or.inl ⟨Fault.vertsAt, by simp [a1, b1, bind, Except.bind],
        by simp [a2, b2, bind, Except.bind]⟩
    · rcases vertsAt_agree floatEq v₁ v₂ hv t.2.2 with ⟨c1, c2⟩ | ⟨p3, q3, c1, c2, c3⟩
      · exact Or.inl ⟨Fault.vertsAt, by simp [a1, b1, c1, bind, Except.bind],
          by simp [a2, b2, c2, bind, Except.bind]⟩
      · refine Or.inr ⟨(p1.vert, p2.vert, p3.vert), (q1.vert, q2.vert, q3.vert), ?_, ?_, ?_⟩
        · simp [a1, b1, c1, bind, Except.bind, pure, Except.pure]
        · simp [a2, b2, c2, bind, Except.bind, pure, Except.pure]
        · simp [callEq, hvert p1 q1 a3, hvert p2 q2 b3, hvert p3 q3 c3]

theorem runTriples_agree {F : Type} (floatEq : F → F → Bool) (v₁ v₂ : List (Vertex3D F))
    (hv : vectorEq (Vertex3D.operatorEq floatEq) v₁ v₂ = true) :
    ∀ ts : List (Int × Int × Int), runsAgree floatEq (runTriples v₁ ts) (runTriples v₂ ts)
  | [] => ⟨rfl, rfl⟩
  | t :: ts => by
    obtain ⟨ih1, ih2⟩ := runTriples_agree floatEq v₁ v₂ hv ts
    rcases triangleOf_agree floatEq v₁ v₂ hv t with ⟨e, h1, h2⟩ | ⟨s, u, h1, h2, h3⟩
    · simp only [runTriples, h1, h2]
      exact ⟨rfl, rfl⟩
    · simp only [runTriples, h1, h2]
      exact ⟨ih1, by simp only [Visits.call, vectorEq, h3, ih2, Bool.and_self]⟩

theorem andThen_agree {F : Type} (floatEq : F → F → Bool) (a b c d : Visits F)
    (hab : runsAgree floatEq a b) (hcd : runsAgree floatEq c d) :
    runsAgree floatEq (a.andThen c) (b.andThen d) := by
  obtain ⟨h1, h2⟩ := hab
  obtain ⟨h3, h4⟩ := hcd
  unfold Visits.andThen
  rw [← h1]
  cases a.fault with
  | none => exact ⟨h3, vectorEq_append _ _ _ _ _ h2 h4⟩
  | some e => exact ⟨rfl, h2⟩

theorem runGroups_agree {F M : Type} (floatEq : F → F → Bool) (g h : Geometry3D F M)
    (hv : vectorEq (Vertex3D.operatorEq floatEq) g.verts h.verts = true)
    (hf : g.triangleFan = h.triangleFan) (hs : g.triangleStrip = h.triangleStrip)
    (ht : g.triangles = h.triangles) :
    ∀ groups : List Indexes3D, runsAgree floatEq (runGroups g groups) (runGroups h groups)
  | [] => ⟨rfl, rfl⟩
  | grp :: rest => by
    have hgrp : runsAgree floatEq (runGroup g grp) (runGroup h grp) := by
      unfold runGroup groupTriples
      rw [← hf, ← hs, ← ht]
      split
      · exact ⟨rfl, rfl⟩
      · exact runTriples_agree floatEq g.verts h.verts hv _
    exact andThen_agree floatEq _ _ _ _ hgrp (runGroups_agree floatEq g h hv hf hs ht rest)

/-! ### Affine matrices -/

theorem affine_mul {K : Type} [Field K] (A B : glm.mat3 K) (t s : Fin 3 → K) :
    affine A t * affine B s = affine (A * B) (A.mulVec s + t) := by
  ext i j
  fin_cases i <;> fin_cases j <;>
    simp [affine, Matrix.mul_apply, Fin.sum_univ_four, Fin.sum_univ_three, Matrix.mulVec,
      Matrix.dotProduct]

theorem affine_one {K : Type} [Field K] : affine (1 : glm.mat3 K) 0 = 1 := by
  ext i j
  fin_cases i <;> fin_cases j <;> simp [affine, Matrix.vecHead, Matrix.vecTail]

theorem eq_affine {K : Type} [Field K] (V : glm.mat4 K) (h0 : V 3 0 = 0) (h1 : V 3 1 = 0)
    (h2 : V 3 2 = 0) (h3 : V 3 3 = 1) :
    V = affine (glm.toMat3 V) (fun r => V (Fin.castSucc r) 3) := by
  ext i j
  fin_cases i <;> fin_cases j <;> simp [affine, glm.toMat3, h0, h1, h2, h3] <;> rfl

theorem toMat3_affine {K : Type} [Field K] (A : glm.mat3 K) (t : Fin 3 → K) :
    glm.toMat3 (affine A t) = A := by
  ext i j
  fin_cases i <;> fin_cases j <;> simp [affine, glm.toMat3] <;> rfl

theorem affine_updateColumn {K : Type} [Field K] (A : glm.mat3 K) (t : Fin 3 → K) (x y z : K) :
    (affine A t).updateColumn 3 ![x, y, z, 1] = affine A ![x, y, z] := by
  ext i j
  fin_cases i <;> fin_cases j <;> simp [affine, Matrix.updateColumn_apply]

theorem glm_inverse_eq_inv {K : Type} [Field K] (m : glm.mat4 K) : glm.inverse m = m⁻¹ := by
  rw [Matrix.inv_def, Ring.inverse_eq_inv']
  rfl

theorem inverse_affine {K : Type} [Field K] (A : glm.mat3 K) (t : Fin 3 → K)
    (hA : A.det ≠ 0) :
    glm.inverse (affine A t) = affine A⁻¹ (-(A⁻¹.mulVec t)) := by
  rw [glm_inverse_eq_inv]
  apply Matrix.inv_eq_right_inv
  rw [affine_mul, Matrix.mul_nonsing_inv A (isUnit_iff_ne_zero.2 hA), Matrix.mulVec_neg,
    Matrix.mulVec_mulVec, Matrix.mul_nonsing_inv A (isUnit_iff_ne_zero.2 hA), Matrix.one_mulVec,
    neg_add_cancel, affine_one]


theorem inverse_inverse_affine {K : Type} [Field K] (A : glm.mat3 K) (t : Fin 3 → K)
    (hA : A.det ≠ 0) : glm.inverse (glm.inverse (affine A t)) = affine A t := by
  rw [glm_inverse_eq_inv, glm_inverse_eq_inv]
  apply Matrix.nonsing_inv_nonsing_inv
  have h := inverse_affine A t hA
  rw [glm_inverse_eq_inv] at h
  apply Matrix.isUnit_det_of_right_inverse (B := affine A⁻¹ (-(A⁻¹.mulVec t)))
  rw [affine_mul, Matrix.mul_nonsing_inv A (isUnit_iff_ne_zero.2 hA), Matrix.mulVec_neg,
    Matrix.mulVec_mulVec, Matrix.mul_nonsing_inv A (isUnit_iff_ne_zero.2 hA), Matrix.one_mulVec,
    neg_add_cancel, affine_one]

theorem det_affine_ne_zero {K : Type} [Field K] (A : glm.mat3 K) (t : Fin 3 → K)
    (hA : A.det ≠ 0) : (affine A t).det ≠ 0 := by
  apply IsUnit.ne_zero
  apply Matrix.isUnit_det_of_right_inverse (B := affine A⁻¹ (-(A⁻¹.mulVec t)))
  rw [affine_mul, Matrix.mul_nonsing_inv A (isUnit_iff_ne_zero.2 hA), Matrix.mulVec_neg,
    Matrix.mulVec_mulVec, Matrix.mul_nonsing_inv A (isUnit_iff_ne_zero.2 hA), Matrix.one_mulVec,
    neg_add_cancel, affine_one]

theorem det_inv_ne_zero {K : Type} [Field K] (A : glm.mat3 K) (hA : A.det ≠ 0) :
    (A⁻¹).det ≠ 0 := by
  have h : (A * A⁻¹).det = 1 := by
    rw [Matrix.mul_nonsing_inv A (isUnit_iff_ne_zero.2 hA), Matrix.det_one]
  rw [Matrix.det_mul] at h
  intro h0
  rw [h0, mul_zero] at h
  exact zero_ne_one h

theorem det_inverse_viewMatrix_ne_zero {K : Type} [Field K] (V : glm.mat4 K)
    (h0 : V 3 0 = 0) (h1 : V 3 1 = 0) (h2 : V 3 2 = 0) (h3 : V 3 3 = 1)
    (hdet : (glm.toMat3 V).det ≠ 0) : V.det ≠ 0 ∧ (glm.inverse V).det ≠ 0 := by
  obtain ⟨A, t, hV, hA⟩ : ∃ (A : glm.mat3 K) (t : Fin 3 → K), V = affine A t ∧ A.det ≠ 0 :=
    ⟨_, _, eq_affine V h0 h1 h2 h3, hdet⟩
  rw [hV, inverse_affine A t hA]
  exact ⟨det_affine_ne_zero A t hA, det_affine_ne_zero _ _ (det_inv_ne_zero A hA)⟩

/-- The matrix that `setPosition` inverts, and the inverse of the new view matrix, for an
affine view matrix with invertible linear part. -/
theorem setPosition_affine {K : Type} [Field K] (l : Light K) (p : vec3 K)
    (h0 : l.viewMatrix 3 0 = 0) (h1 : l.viewMatrix 3 1 = 0) (h2 : l.viewMatrix 3 2 = 0)
    (h3 : l.viewMatrix 3 3 = 1) (hdet : (glm.toMat3 l.viewMatrix).det ≠ 0) :
    ∃ B : glm.mat3 K, B.det ≠ 0 ∧ glm.toMat3 (glm.inverse l.viewMatrix) = B ∧
      (glm.inverse l.viewMatrix).updateColumn 3 ![p.x, p.y, p.z, 1] =
        affine B ![p.x, p.y, p.z] ∧
      glm.inverse (l.setPosition p).viewMatrix = affine B ![p.x, p.y, p.z] := by
  obtain ⟨A, t, hV, hA⟩ : ∃ (A : glm.mat3 K) (t : Fin 3 → K),
      l.viewMatrix = affine A t ∧ A.det ≠ 0 :=
    ⟨_, _, eq_affine l.viewMatrix h0 h1 h2 h3, hdet⟩
  have hm : (glm.inverse l.viewMatrix).updateColumn 3 ![p.x, p.y, p.z, 1] =
      affine A⁻¹ ![p.x, p.y, p.z] := by
    rw [hV, inverse_affine A t hA, affine_updateColumn]
  refine ⟨A⁻¹, det_inv_ne_zero A hA, ?_, hm, ?_⟩
  · rw [hV, inverse_affine A t hA, toMat3_affine]
  · show glm.inverse (glm.inverse ((glm.inverse l.viewMatrix).updateColumn 3
      ![p.x, p.y, p.z, 1])) = _
    rw [hm, inverse_inverse_affine _ _ (det_inv_ne_zero A hA)]


theorem exampleLight_affine :
    (exampleLight.viewMatrix 3 0 = 0 ∧ exampleLight.viewMatrix 3 1 = 0 ∧
      exampleLight.viewMatrix 3 2 = 0 ∧ exampleLight.viewMatrix 3 3 = 1) ∧
    (glm.toMat3 exampleLight.viewMatrix).det ≠ 0 := by
  refine ⟨⟨rfl, rfl, rfl, rfl⟩, ?_⟩
  have h : glm.toMat3 exampleLight.viewMatrix = !![0, -1, 0; 1, 0, 0; 0, 0, 1] := by
    ext i j
    fin_cases i <;> fin_cases j <;> rfl
  rw [h, Matrix.det_fin_three]
  simp

/-! ## The topology rules -/

/-- C1. A group whose type is the mesh's triangleFan tag, with n ≥ 1 indices that are all valid
offsets into verts, is traversed without fault; the closure is called exactly max(n-2, 0) times,
and call number i (i = 1..n-2, in this order) receives the positions of the vertices
index[0], index[i], index[i+1]. -/
theorem fan_group_visits {F M : Type} (g : Geometry3D F M) (grp : Indexes3D)
    (hfan : grp.type = g.triangleFan) (hn : 1 ≤ grp.indexes.length)
    (hvalid : ∀ i ∈ grp.indexes, 0 ≤ i ∧ i < g.verts.length) :
    (forEachTriangleGroup g grp).fault = none ∧
    ((forEachTriangleGroup g grp).calls.length : Int) = max ((grp.indexes.length : Int) - 2) 0 ∧
    ∀ i : Nat, 1 ≤ i → i + 2 ≤ grp.indexes.length →
      ∃ (a b c : Int) (p q r : Vertex3D F),
        grp.indexes[0]? = some a ∧ grp.indexes[i]? = some b ∧ grp.indexes[i + 1]? = some c ∧
        g.verts[a.toNat]? = some p ∧ g.verts[b.toNat]? = some q ∧ g.verts[c.toNat]? = some r ∧
        (forEachTriangleGroup g grp).calls[i - 1]? = some (p.vert, q.vert, r.vert) := by
  have hg : groupTriples g grp = fanGroupTriples grp.indexes := by
    unfold groupTriples; rw [if_pos hfan]
  have hall : ∀ t ∈ fanGroupTriples grp.indexes, ValidTriple g.verts t := by
    apply validTriple_of_not_exists
    intro hex
    obtain ⟨-, pos, i, hpos, hP⟩ :=
      (fanGroupTriples_exists_iff (fun i => ¬ ValidIndex g.verts i) _).1 hex
    exact hP (hvalid i (List.mem_iff_getElem?.2 ⟨pos, hpos⟩))
  have hne : grp.type = g.triangleFan → grp.indexes ≠ [] := by
    intro _ h
    rw [h] at hn
    simp at hn
  rw [forEachTriangleGroup_eq_run g grp hne, hg]
  obtain ⟨hfault, hlen⟩ := runTriples_all_valid g.verts _ hall
  refine ⟨hfault, ?_, ?_⟩
  · rw [hlen, fanGroupTriples_length]
    omega
  · intro i h1 h2
    have hi : i + 1 < grp.indexes.length := by omega
    obtain ⟨p, q, r, hp, hq, hr, hcall⟩ := runTriples_calls_getElem? g.verts _ (i - 1) _ hall
      (fanGroupTriples_getElem? grp.indexes i h1 hi)
    exact ⟨_, _, _, p, q, r, List.getElem?_eq_getElem (by omega),
      List.getElem?_eq_getElem (by omega), List.getElem?_eq_getElem hi, hp, hq, hr, hcall⟩

/-- Witness of C1: the fan 0,1,2,3 over the unit square. -/
theorem fan_group_visits_witness :
    ((⟨6, [0, 1, 2, 3]⟩ : Indexes3D).type = (squareMesh []).triangleFan ∧
      1 ≤ (⟨6, [0, 1, 2, 3]⟩ : Indexes3D).indexes.length ∧
      ∀ i ∈ (⟨6, [0, 1, 2, 3]⟩ : Indexes3D).indexes,
        0 ≤ i ∧ i < (squareMesh []).verts.length) ∧
    (forEachTriangleGroup (squareMesh []) ⟨6, [0, 1, 2, 3]⟩).fault = none ∧
    ((forEachTriangleGroup (squareMesh []) ⟨6, [0, 1, 2, 3]⟩).calls.length : Int) = 2 :=
  ⟨⟨by decide, by decide, by decide⟩,
    (fan_group_visits (squareMesh []) ⟨6, [0, 1, 2, 3]⟩ (by decide) (by decide) (by decide)).1,
    (fan_group_visits (squareMesh []) ⟨6, [0, 1, 2, 3]⟩ (by decide) (by decide) (by decide)).2.1⟩

/-- C2. A group whose type is the mesh's triangleStrip tag and not its triangleFan tag, with n
indices that are all valid offsets into verts, is traversed without fault; the closure is called
exactly max(n-2, 0) times, and call number i (i = 0..n-3, in this order) receives the positions
of the vertices index[i], index[i+1], index[i+2], in this order for even and odd i alike. -/
theorem strip_group_visits {F M : Type} (g : Geometry3D F M) (grp : Indexes3D)
    (hstrip : grp.type = g.triangleStrip) (hnotfan : grp.type ≠ g.triangleFan)
    (hvalid : ∀ i ∈ grp.indexes, 0 ≤ i ∧ i < g.verts.length) :
    (forEachTriangleGroup g grp).fault = none ∧
    ((forEachTriangleGroup g grp).calls.length : Int) = max ((grp.indexes.length : Int) - 2) 0 ∧
    ∀ i : Nat, i + 3 ≤ grp.indexes.length →
      ∃ (a b c : Int) (p q r : Vertex3D F),
        grp.indexes[i]? = some a ∧ grp.indexes[i + 1]? = some b ∧
        grp.indexes[i + 2]? = some c ∧
        g.verts[a.toNat]? = some p ∧ g.verts[b.toNat]? = some q ∧ g.verts[c.toNat]? = some r ∧
        (forEachTriangleGroup g grp).calls[i]? = some (p.vert, q.vert, r.vert) := by
  have hg : groupTriples g grp = stripTriples grp.indexes := by
    unfold groupTriples; rw [if_neg hnotfan, if_pos hstrip]
  have hall : ∀ t ∈ stripTriples grp.indexes, ValidTriple g.verts t := by
    apply validTriple_of_not_exists
    intro hex
    obtain ⟨-, pos, i, hpos, hP⟩ :=
      (stripTriples_exists_iff (fun i => ¬ ValidIndex g.verts i) _).1 hex
    exact hP (hvalid i (List.mem_iff_getElem?.2 ⟨pos, hpos⟩))
  rw [forEachTriangleGroup_eq_run g grp (fun h => absurd h hnotfan), hg]
  obtain ⟨hfault, hlen⟩ := runTriples_all_valid g.verts _ hall
  refine ⟨hfault, ?_, ?_⟩
  · rw [hlen, stripTriples_length]
    omega
  · intro i h2
    have hi : i + 2 < grp.indexes.length := by omega
    obtain ⟨p, q, r, hp, hq, hr, hcall⟩ := runTriples_calls_getElem? g.verts _ i _ hall
      (stripTriples_getElem? grp.indexes i hi)
    exact ⟨_, _, _, p, q, r, List.getElem?_eq_getElem (by omega),
      List.getElem?_eq_getElem (by omega), List.getElem?_eq_getElem hi, hp, hq, hr, hcall⟩

/-- Witness of C2: the strip 0,1,3,2 over the unit square. -/
theorem strip_group_visits_witness :
    ((⟨5, [0, 1, 3, 2]⟩ : Indexes3D).type = (squareMesh []).triangleStrip ∧
      (⟨5, [0, 1, 3, 2]⟩ : Indexes3D).type ≠ (squareMesh []).triangleFan ∧
      ∀ i ∈ (⟨5, [0, 1, 3, 2]⟩ : Indexes3D).indexes,
        0 ≤ i ∧ i < (squareMesh []).verts.length) ∧
    (forEachTriangleGroup (squareMesh []) ⟨5, [0, 1, 3, 2]⟩).fault = none ∧
    ((forEachTriangleGroup (squareMesh []) ⟨5, [0, 1, 3, 2]⟩).calls.length : Int) = 2 :=
  ⟨⟨by decide, by decide, by decide⟩,
    (strip_group_visits (squareMesh []) ⟨5, [0, 1, 3, 2]⟩ (by decide) (by decide) (by decide)).1,
    (strip_group_visits (squareMesh []) ⟨5, [0, 1, 3, 2]⟩ (by decide) (by decide)
      (by decide)).2.1⟩

/-- C3. A group whose type is the mesh's triangles tag and neither the fan nor the strip tag,
with n indices of which the first 3*floor(n/3) are valid offsets into verts, is traversed without
fault; the closure is called exactly floor(n/3) times, call number k (k = 0..floor(n/3)-1, in
this order) receives the positions of the vertices index[3k], index[3k+1], index[3k+2], and the
run is the run of the group truncated to its first 3*floor(n/3) indices: the one or two leftover
indices are not read, whatever their values. -/
theorem triangles_group_visits {F M : Type} (g : Geometry3D F M) (grp : Indexes3D)
    (htri : grp.type = g.triangles) (hnotfan : grp.type ≠ g.triangleFan)
    (hnotstrip : grp.type ≠ g.triangleStrip)
    (hvalid : ∀ (pos : Nat) (i : Int), grp.indexes[pos]? = some i →
      pos < 3 * (grp.indexes.length / 3) → 0 ≤ i ∧ i < g.verts.length) :
    (forEachTriangleGroup g grp).fault = none ∧
    (forEachTriangleGroup g grp).calls.length = grp.indexes.length / 3 ∧
    (∀ k : Nat, k < grp.indexes.length / 3 →
      ∃ (a b c : Int) (p q r : Vertex3D F),
        grp.indexes[3 * k]? = some a ∧ grp.indexes[3 * k + 1]? = some b ∧
        grp.indexes[3 * k + 2]? = some c ∧
        g.verts[a.toNat]? = some p ∧ g.verts[b.toNat]? = some q ∧ g.verts[c.toNat]? = some r ∧
        (forEachTriangleGroup g grp).calls[k]? = some (p.vert, q.vert, r.vert)) ∧
    forEachTriangleGroup g grp =
      forEachTriangleGroup g
        ⟨grp.type, grp.indexes.take (3 * (grp.indexes.length / 3))⟩ := by
  have hg : groupTriples g grp = listTriples grp.indexes := by
    unfold groupTriples; rw [if_neg hnotfan, if_neg hnotstrip, if_pos htri]
  have hg2 : groupTriples g ⟨grp.type, grp.indexes.take (3 * (grp.indexes.length / 3))⟩ =
      listTriples grp.indexes := by
    unfold groupTriples
    simp only []
    rw [if_neg hnotfan, if_neg hnotstrip, if_pos htri, listTriples_take]
  have hall : ∀ t ∈ listTriples grp.indexes, ValidTriple g.verts t := by
    apply validTriple_of_not_exists
    intro hex
    obtain ⟨pos, i, hpos, hlt, hP⟩ :=
      (listTriples_exists_iff (fun i => ¬ ValidIndex g.verts i) _).1 hex
    exact hP (hvalid pos i hpos hlt)
  rw [forEachTriangleGroup_eq_run g grp (fun h => absurd h hnotfan),
    forEachTriangleGroup_eq_run g
      ⟨grp.type, grp.indexes.take (3 * (grp.indexes.length / 3))⟩
      (fun h => absurd h hnotfan), hg, hg2]
  obtain ⟨hfault, hlen⟩ := runTriples_all_valid g.verts _ hall
  refine ⟨hfault, ?_, ?_, rfl⟩
  · rw [hlen, listTriples_length]
  · intro k h2
    have hi : 3 * k + 2 < grp.indexes.length := by omega
    obtain ⟨p, q, r, hp, hq, hr, hcall⟩ := runTriples_calls_getElem? g.verts _ k _ hall
      (listTriples_getElem? grp.indexes k hi)
    exact ⟨_, _, _, p, q, r, List.getElem?_eq_getElem (by omega),
      List.getElem?_eq_getElem (by omega), List.getElem?_eq_getElem hi, hp, hq, hr, hcall⟩

/-- Witness of C3: a triangle list of five indices whose two leftover indices are out of
range. -/
theorem triangles_group_visits_witness :
    ((⟨4, [0, 1, 2, 7, -1]⟩ : Indexes3D).type = (squareMesh []).triangles ∧
      (⟨4, [0, 1, 2, 7, -1]⟩ : Indexes3D).type ≠ (squareMesh []).triangleFan ∧
      (⟨4, [0, 1, 2, 7, -1]⟩ : Indexes3D).type ≠ (squareMesh []).triangleStrip) ∧
    (forEachTriangleGroup (squareMesh []) ⟨4, [0, 1, 2, 7, -1]⟩).fault = none ∧
    (forEachTriangleGroup (squareMesh []) ⟨4, [0, 1, 2, 7, -1]⟩).calls.length = 1 :=
  have hvalid : ∀ (pos : Nat) (i : Int),
      (⟨4, [0, 1, 2, 7, -1]⟩ : Indexes3D).indexes[pos]? = some i →
      pos < 3 * ((⟨4, [0, 1, 2, 7, -1]⟩ : Indexes3D).indexes.length / 3) →
      0 ≤ i ∧ i < (squareMesh []).verts.length := by
    intro pos i hpos hlt
    have h3 : pos < 3 := hlt
    match pos, h3 with
    | 0, _ => simp at hpos; subst hpos; decide
    | 1, _ => simp at hpos; subst hpos; decide
    | 2, _ => simp at hpos; subst hpos; decide
  ⟨⟨by decide, by decide, by decide⟩,
    (triangles_group_visits (squareMesh []) ⟨4, [0, 1, 2, 7, -1]⟩ (by decide) (by decide)
      (by decide) hvalid).1,
    (triangles_group_visits (squareMesh []) ⟨4, [0, 1, 2, 7, -1]⟩ (by decide) (by decide)
      (by decide) hvalid).2.1⟩

/-! ## Meshes without an empty fan group

What the traversal does when no fan-typed group is empty, so that `front()` (line 135) is
defined on every group it is called on. -/

/-- With valid indices and no empty fan group, the calls on the groups G1 ++ G2 are the calls on
G1 followed by the calls on G2, and no run ends with a fault. -/
theorem forEachTriangle_append_of_nonempty_fans {F M : Type} (g : Geometry3D F M)
    (G1 G2 : List Indexes3D)
    (h1 : ∀ grp ∈ G1, ∀ i ∈ grp.indexes, 0 ≤ i ∧ i < g.verts.length)
    (h2 : ∀ grp ∈ G2, ∀ i ∈ grp.indexes, 0 ≤ i ∧ i < g.verts.length)
    (hne1 : ∀ grp ∈ G1, grp.type = g.triangleFan → grp.indexes ≠ [])
    (hne2 : ∀ grp ∈ G2, grp.type = g.triangleFan → grp.indexes ≠ []) :
    (forEachTriangle { g with indexes := G1 ++ G2 }).calls =
      (forEachTriangle { g with indexes := G1 }).calls ++
        (forEachTriangle { g with indexes := G2 }).calls ∧
    (forEachTriangle { g with indexes := G1 ++ G2 }).fault = none ∧
    (forEachTriangle { g with indexes := G1 }).fault = none ∧
    (forEachTriangle { g with indexes := G2 }).fault = none := by
  have v1 := (runTriples_all_valid g.verts _ (flatMap_groupTriples_valid g G1 h1)).1
  have v2 := (runTriples_all_valid g.verts _ (flatMap_groupTriples_valid g G2 h2)).1
  have hne : ∀ grp ∈ G1 ++ G2, grp.type = g.triangleFan → grp.indexes ≠ [] := by
    intro grp hgrp
    rcases List.mem_append.1 hgrp with h | h
    · exact hne1 grp h
    · exact hne2 grp h
  rw [forEachTriangle_with_indexes g _ hne, forEachTriangle_with_indexes g _ hne1,
    forEachTriangle_with_indexes g _ hne2, List.flatMap_append, runTriples_append]
  refine ⟨?_, ?_, v1, v2⟩
  · simp [Visits.andThen, v1]
  · simp [Visits.andThen, v1, v2]

/-- With valid indices and no empty fan group the run ends without fault. -/
theorem forEachTriangle_no_fault_of_nonempty_fans {F M : Type} (g : Geometry3D F M)
    (hinv : ∀ grp ∈ g.indexes, ∀ i ∈ grp.indexes, 0 ≤ i ∧ i < g.verts.length)
    (hne : ∀ grp ∈ g.indexes, grp.type = g.triangleFan → grp.indexes ≠ []) :
    (forEachTriangle g).fault = none := by
  rw [forEachTriangle_eq g hne]
  exact (runTriples_all_valid g.verts _ (flatMap_groupTriples_valid g g.indexes hinv)).1

/-- A group with fewer than three indices that is not an empty fan group gives no closure call
and no fault, whatever its indices; the loop bound is 0 when the subtrahend exceeds the length
and never exceeds the length. -/
theorem short_group_no_visits_of_nonempty_fan {F M : Type} (g : Geometry3D F M)
    (grp : Indexes3D) (hshort : grp.indexes.length < 3)
    (hne : grp.type = g.triangleFan → grp.indexes ≠ []) :
    forEachTriangleGroup g grp = ⟨[], none⟩ ∧
    (∀ n sub : Nat, n < sub → calcVMax n sub = 0) ∧
    (∀ n sub : Nat, calcVMax n sub ≤ n) := by
  refine ⟨?_, ?_, ?_⟩
  · have hlen : (groupTriples g grp).length = 0 := by
      rw [groupTriples_length]
      split
      · omega
      · split
        · omega
        · split
          · omega
          · rfl
    rw [forEachTriangleGroup_eq_run g grp hne, List.length_eq_zero.1 hlen]
    rfl
  · intro n sub h
    rw [calcVMax_eq]
    omega
  · intro n sub
    rw [calcVMax_eq]
    omega

/-- With valid indices and no empty fan group, the number of closure calls is the triangle count
of stats as the spec defines it. -/
theorem forEachTriangle_count_eq_stats_of_nonempty_fans {F M : Type} (g : Geometry3D F M)
    (hvalid : ∀ grp ∈ g.indexes, ∀ i ∈ grp.indexes, 0 ≤ i ∧ i < g.verts.length)
    (hne : ∀ grp ∈ g.indexes, grp.type = g.triangleFan → grp.indexes ≠ []) :
    (forEachTriangle g).calls.length = statsTriangleCount g := by
  have hgrp : ∀ grp : Indexes3D,
      (groupTriples g grp).length = statsGroupTriangleCount g grp := by
    intro grp
    rw [groupTriples_length]
    unfold statsGroupTriangleCount
    by_cases hf : grp.type = g.triangleFan
    · rw [if_pos hf, if_pos (Or.inl hf)]; omega
    · by_cases hs : grp.type = g.triangleStrip
      · rw [if_neg hf, if_pos hs, if_pos (Or.inr hs)]; omega
      · have hn : ¬ (grp.type = g.triangleFan ∨ grp.type = g.triangleStrip) := by
          rintro (h | h)
          · exact hf h
          · exact hs h
        rw [if_neg hf, if_neg hs, if_neg hn]
  have hsum : ∀ groups : List Indexes3D,
      (groups.flatMap (groupTriples g)).length =
        (groups.map (statsGroupTriangleCount g)).sum := by
    intro groups
    induction groups with
    | nil => rfl
    | cons grp rest ih =>
      rw [List.flatMap_cons, List.length_append, ih, hgrp, List.map_cons, List.sum_cons]
  have hlen := (runTriples_all_valid g.verts _
    (flatMap_groupTriples_valid g g.indexes hvalid)).2
  rw [forEachTriangle_eq g hne]
  exact hlen.trans (hsum g.indexes)

/-! ## The empty fan group

Line 135 calls `indexes.indexes.front()` on every fan-typed group, before `calcVMax` is
consulted.  The strip and list branches never touch an element of a group that is too short. -/

/-- C6 (code defect). At the failing input, a fan-typed group with no index (n = 0 < 3), the
traversal does not return normally: it ends in `front()` on the empty vector (line 135), before
the loop bound calcVMax(1) = 0 is computed.  The sibling branches do what the claim says: an
empty strip group and an empty triangle-list group give no call and no fault, as do fan groups
of one and two indices. -/
theorem emptyFan_group_fault :
    (⟨6, []⟩ : Indexes3D).indexes.length < 3 ∧
    forEachTriangleGroup (squareMesh []) ⟨6, []⟩ = ⟨[], some Fault.frontOnEmpty⟩ ∧
    forEachTriangleGroup (squareMesh []) ⟨5, []⟩ = ⟨[], none⟩ ∧
    forEachTriangleGroup (squareMesh []) ⟨4, []⟩ = ⟨[], none⟩ ∧
    forEachTriangleGroup (squareMesh []) ⟨6, [0]⟩ = ⟨[], none⟩ ∧
    forEachTriangleGroup (squareMesh []) ⟨6, [0, 1]⟩ = ⟨[], none⟩ ∧
    calcVMax 0 1 = 0 := by
  simp only [forEachTriangleGroup_eq]
  decide

/-- C4 (code defect, the one of C6). At the failing input G1 = [empty fan group],
G2 = [fan 0,1,2,3] over the unit square all indices are valid, yet the run on G1 ++ G2 ends in
`front()` on the empty first group without any closure call, while the calls on G1 followed by
the calls on G2 are the two fan triangles of G2. -/
theorem forEachTriangle_append_emptyFan :
    (∀ grp ∈ ([⟨6, []⟩] ++ [⟨6, [0, 1, 2, 3]⟩] : List Indexes3D), ∀ i ∈ grp.indexes,
      0 ≤ i ∧ i < (squareMesh []).verts.length) ∧
    forEachTriangle { squareMesh [] with indexes := [⟨6, []⟩] ++ [⟨6, [0, 1, 2, 3]⟩] } =
      ⟨[], some Fault.frontOnEmpty⟩ ∧
    (forEachTriangle { squareMesh [] with indexes := [⟨6, []⟩] }).calls ++
        (forEachTriangle { squareMesh [] with indexes := [⟨6, [0, 1, 2, 3]⟩] }).calls =
      [(⟨0, 0, 0⟩, ⟨1, 0, 0⟩, ⟨1, 1, 0⟩), (⟨0, 0, 0⟩, ⟨1, 1, 0⟩, ⟨0, 1, 0⟩)] := by
  simp only [forEachTriangle_eq_runGroups]
  decide

/-- C5 (code defect, the one of C6). At the failing input, the mesh over the unit square whose
only group is an empty fan group, the invariant holds (there is no index), yet forEachTriangle
does not return normally: it ends in `front()` on the empty vector (line 135). -/
theorem forEachTriangle_fails_emptyFan :
    (∀ grp ∈ (squareMesh [⟨6, []⟩]).indexes, ∀ i ∈ grp.indexes,
      0 ≤ i ∧ i < (squareMesh [⟨6, []⟩]).verts.length) ∧
    forEachTriangle (squareMesh [⟨6, []⟩]) = ⟨[], some Fault.frontOnEmpty⟩ := by
  simp only [forEachTriangle_eq_runGroups]
  decide

/-- C7 (code defect, the one of C6). At the failing input, the mesh over the unit square with
an empty fan group followed by the fan 0,1,2,3, the tags are pairwise distinct and the indices
valid, the triangle count of stats is 0 + 2 = 2, yet forEachTriangle makes no closure call: it
ends in `front()` on the empty first group. -/
theorem forEachTriangle_count_emptyFan :
    ((squareMesh []).triangleFan ≠ (squareMesh []).triangleStrip ∧
      (squareMesh []).triangleFan ≠ (squareMesh []).triangles ∧
      (squareMesh []).triangleStrip ≠ (squareMesh []).triangles) ∧
    (∀ grp ∈ (squareMesh [⟨6, []⟩, ⟨6, [0, 1, 2, 3]⟩]).indexes, ∀ i ∈ grp.indexes,
      0 ≤ i ∧ i < (squareMesh []).verts.length) ∧
    statsTriangleCount (squareMesh [⟨6, []⟩, ⟨6, [0, 1, 2, 3]⟩]) = 2 ∧
    (forEachTriangle (squareMesh [⟨6, []⟩, ⟨6, [0, 1, 2, 3]⟩])).calls.length = 0 ∧
    (forEachTriangle (squareMesh [⟨6, []⟩, ⟨6, [0, 1, 2, 3]⟩])).fault =
      some Fault.frontOnEmpty := by
  simp only [forEachTriangle_eq_runGroups]
  decide

/-- C9 (code defect, the one of C6). At the failing input, the mesh whose only group is an empty
fan group, no group holds any index, so no index is out of range, yet the run ends with a fault,
and the fault is not the one of verts.at but `front()` on the empty vector.  With a strip 0,1,9
after the empty fan group, the out-of-range index 9 takes part in a triangle but verts.at is
never reached. -/
theorem forEachTriangle_fault_emptyFan :
    (∀ grp ∈ (squareMesh [⟨6, []⟩]).indexes, grp.indexes = []) ∧
    (forEachTriangle (squareMesh [⟨6, []⟩])).fault = some Fault.frontOnEmpty ∧
    (forEachTriangle (squareMesh [⟨6, []⟩])).fault ≠ none ∧
    (forEachTriangle (squareMesh [⟨6, []⟩])).fault ≠ some Fault.vertsAt ∧
    forEachTriangle (squareMesh [⟨6, []⟩, ⟨5, [0, 1, 9]⟩]) = ⟨[], some Fault.frontOnEmpty⟩ := by
  simp only [forEachTriangle_eq_runGroups]
  decide

/-! ## Renumbering, out-of-range indices -/

/-- C8. The traversal depends on the tag numbers only through equality of a group's type with
the mesh's tags: replacing the three tags and every group type through an injective renumbering
of the integers leaves the run (closure calls and fault) unchanged. -/
theorem forEachTriangle_renumberTags {F M : Type} (g : Geometry3D F M) (f : Int → Int)
    (hf : Function.Injective f) :
    forEachTriangle (renumberTags f g) = forEachTriangle g := by
  have hgrp : ∀ grp : Indexes3D,
      forEachTriangleGroup (renumberTags f g) { grp with type := f grp.type } =
        forEachTriangleGroup g grp := by
    intro grp
    simp only [forEachTriangleGroup, renumberTags, hf.eq_iff]
  have hfrom : ∀ groups : List Indexes3D,
      forEachTriangleFrom (renumberTags f g)
          (groups.map (fun grp => { grp with type := f grp.type })) =
        forEachTriangleFrom g groups := by
    intro groups
    induction groups with
    | nil => rfl
    | cons grp rest ih =>
      rw [List.map_cons, forEachTriangleFrom, forEachTriangleFrom, hgrp, ih]
  exact hfrom g.indexes

/-- Witness of C8: shifting every tag number by 100. -/
theorem forEachTriangle_renumberTags_witness :
    Function.Injective (fun t : Int => t + 100) ∧
    forEachTriangle (renumberTags (fun t : Int => t + 100)
        (squareMesh [⟨6, [0, 1, 2, 3]⟩, ⟨5, [0, 1, 9]⟩])) =
      forEachTriangle (squareMesh [⟨6, [0, 1, 2, 3]⟩, ⟨5, [0, 1, 9]⟩]) :=
  ⟨fun a b h => by simpa using h,
    forEachTriangle_renumberTags (squareMesh [⟨6, [0, 1, 2, 3]⟩, ⟨5, [0, 1, 9]⟩])
      (fun t : Int => t + 100) (fun a b h => by simpa using h)⟩

/-- For a mesh without an empty fan group, forEachTriangle ends with a
fault if and only if some index at a position that takes part in a triangle (any position of a
fan or strip group with n ≥ 3, any of the first 3*floor(n/3) positions of a triangle-list group)
is negative or at least verts.size(); the only fault is the one raised by verts.at.  In every run
the closure calls are exactly the triangles that precede, in traversal order, the first triangle
with such an index: one call per triangle, with the positions of its three (valid) indices. -/
theorem forEachTriangle_fault_iff_of_nonempty_fans {F M : Type} (g : Geometry3D F M)
    (hne : ∀ grp ∈ g.indexes, grp.type = g.triangleFan → grp.indexes ≠ []) :
    ((forEachTriangle g).fault ≠ none ↔
      ∃ grp ∈ g.indexes, ∃ (pos : Nat) (i : Int), grp.indexes[pos]? = some i ∧
        (((grp.type = g.triangleFan ∨ grp.type = g.triangleStrip) ∧
            3 ≤ grp.indexes.length) ∨
          (grp.type = g.triangles ∧ pos < 3 * (grp.indexes.length / 3))) ∧
        (i < 0 ∨ (g.verts.length : Int) ≤ i)) ∧
    ((forEachTriangle g).fault = none ∨ (forEachTriangle g).fault = some Fault.vertsAt) ∧
    (forEachTriangle g).calls.length =
      ((meshTriples g).takeWhile (fun t => decide (ValidTriple g.verts t))).length ∧
    ∀ (k : Nat) (t : Int × Int × Int),
      ((meshTriples g).takeWhile (fun t => decide (ValidTriple g.verts t)))[k]? = some t →
      ((0 ≤ t.1 ∧ t.1 < g.verts.length) ∧ (0 ≤ t.2.1 ∧ t.2.1 < g.verts.length) ∧
        (0 ≤ t.2.2 ∧ t.2.2 < g.verts.length)) ∧
      ∃ p q r : Vertex3D F, g.verts[t.1.toNat]? = some p ∧ g.verts[t.2.1.toNat]? = some q ∧
        g.verts[t.2.2.toNat]? = some r ∧
        (forEachTriangle g).calls[k]? = some (p.vert, q.vert, r.vert) := by
  have hinv : ∀ i : Int, ¬ ValidIndex g.verts i ↔ (i < 0 ∨ (g.verts.length : Int) ≤ i) := by
    intro i
    unfold ValidIndex
    omega
  have hexists : (∃ t ∈ meshTriples g, ¬ ValidTriple g.verts t) ↔
      ∃ grp ∈ g.indexes, ∃ (pos : Nat) (i : Int), grp.indexes[pos]? = some i ∧
        (((grp.type = g.triangleFan ∨ grp.type = g.triangleStrip) ∧
            3 ≤ grp.indexes.length) ∨
          (grp.type = g.triangles ∧ pos < 3 * (grp.indexes.length / 3))) ∧
        (i < 0 ∨ (g.verts.length : Int) ≤ i) := by
    constructor
    · rintro ⟨t, ht, hbad⟩
      obtain ⟨grp, hgrp, htg⟩ := List.mem_flatMap.1 ht
      obtain ⟨pos, i, hpos, hpart, hP⟩ :=
        (groupTriples_exists_iff g grp (fun i => ¬ ValidIndex g.verts i)).1
          ⟨t, htg, (not_validTriple_iff g.verts t).1 hbad⟩
      exact ⟨grp, hgrp, pos, i, hpos, hpart, (hinv i).1 hP⟩
    · rintro ⟨grp, hgrp, pos, i, hpos, hpart, hP⟩
      obtain ⟨t, htg, hbad⟩ :=
        (groupTriples_exists_iff g grp (fun i => ¬ ValidIndex g.verts i)).2
          ⟨pos, i, hpos, hpart, (hinv i).2 hP⟩
      exact ⟨t, List.mem_flatMap.2 ⟨grp, hgrp, htg⟩, (not_validTriple_iff g.verts t).2 hbad⟩
  have hprefix : ∀ t ∈ (meshTriples g).takeWhile (fun t => decide (ValidTriple g.verts t)),
      ValidTriple g.verts t := by
    intro t ht
    simpa using List.mem_takeWhile_imp ht
  rw [forEachTriangle_eq g hne]
  refine ⟨?_, ?_, ?_, ?_⟩
  · rw [← hexists]
    rcases runTriples_fault_cases g.verts (meshTriples g) with ⟨h1, h2⟩ | ⟨h1, h2⟩
    · constructor
      · intro h; exact absurd h1 h
      · rintro ⟨t, ht, hbad⟩; exact absurd (h2 t ht) hbad
    · constructor
      · intro _; exact h2
      · intro _; rw [h1]; simp
  · rcases runTriples_fault_cases g.verts (meshTriples g) with ⟨h1, -⟩ | ⟨h1, -⟩
    · exact Or.inl h1
    · exact Or.inr h1
  · rw [runTriples_calls_takeWhile]
    exact (runTriples_all_valid g.verts _ hprefix).2
  · intro k t hk
    have hv : ValidTriple g.verts t := hprefix t (List.mem_iff_getElem?.2 ⟨k, hk⟩)
    refine ⟨hv, ?_⟩
    rw [runTriples_calls_takeWhile]
    exact runTriples_calls_getElem? g.verts _ k t hprefix hk

/-! ## The light-type name table -/

/-- C10. The light-type name table is bidirectional: lightTypeFromString inverts
lightTypeToString on each of the three values, and lightTypes is the list of the three names in
the order Directional, Global, Spot, without duplicates. -/
theorem lightType_roundtrip :
    (∀ t : LightType, lightTypeFromString (lightTypeToString t) = t) ∧
    lightTypes =
      [LightType.Directional, LightType.Global, LightType.Spot].map lightTypeToString ∧
    lightTypes.Nodup := by
  refine ⟨?_, rfl, by decide⟩
  intro t
  cases t <;> decide

/-- C11. The function lightTypeFromString is total and degrades an unknown name to the default:
for every string s the round trip lightTypeToString(lightTypeFromString(s)) gives back s exactly
when s is one of the names in lightTypes(), and every other string (the empty string and names
that differ only in letter case included) is mapped to LightType::Directional. -/
theorem lightTypeFromString_unknown (s : String) :
    (lightTypeToString (lightTypeFromString s) = s ↔ s ∈ lightTypes) ∧
    (s ∉ lightTypes → lightTypeFromString s = LightType.Directional) ∧
    lightTypeFromString "" = LightType.Directional ∧
    lightTypeFromString "spot" = LightType.Directional ∧
    lightTypeFromString "GLOBAL" = LightType.Directional := by
  refine ⟨?_, ?_, by decide, by decide, by decide⟩
  · unfold lightTypeFromString lightTypes
    by_cases h1 : s = "Directional"
    · subst h1; decide
    · by_cases h2 : s = "Global"
      · subst h2; decide
      · by_cases h3 : s = "Spot"
        · subst h3; decide
        · rw [if_neg h1, if_neg h2, if_neg h3]
          simp only [lightTypeToString, List.mem_cons, List.mem_singleton, h1, h2, h3,
            List.not_mem_nil, or_self, iff_false]
          exact fun h => h1 h.symm
  · intro h
    unfold lightTypes at h
    unfold lightTypeFromString
    have h1 : s ≠ "Directional" := fun e => h (by simp [e])
    have h2 : s ≠ "Global" := fun e => h (by simp [e])
    have h3 : s ≠ "Spot" := fun e => h (by simp [e])
    rw [if_neg h1, if_neg h2, if_neg h3]

/-! ## Group types and tags -/

/-- C12. A group whose type equals none of the mesh's three tag fields is traversed with zero
closure calls and without fault, whatever its indices.  In particular a default-constructed index
group (type 0) in a default-constructed mesh (tags 6, 5, 4) yields no triangle, however many
indices it holds and over whatever vertices. -/
theorem untyped_group_no_visits {F M : Type} (g : Geometry3D F M) (grp : Indexes3D)
    (hfan : grp.type ≠ g.triangleFan) (hstrip : grp.type ≠ g.triangleStrip)
    (htri : grp.type ≠ g.triangles) :
    forEachTriangleGroup g grp = ⟨[], none⟩ ∧
    ∀ (m : M) (verts : List (Vertex3D F)) (indexes : List Int),
      forEachTriangleGroup ({ verts := verts, material := m } : Geometry3D F M)
        { indexes := indexes } = ⟨[], none⟩ := by
  refine ⟨forEachTriangleGroup_of_ne g grp hfan hstrip htri, ?_⟩
  intro m verts indexes
  apply forEachTriangleGroup_of_ne
  · show (0 : Int) ≠ TP_TRIANGLE_FAN
    decide
  · show (0 : Int) ≠ TP_TRIANGLE_STRIP
    decide
  · show (0 : Int) ≠ TP_TRIANGLES
    decide

/-- Witness of C12: a group of type 7 with out-of-range indices in a mesh with tags 6, 5, 4. -/
theorem untyped_group_no_visits_witness :
    ((⟨7, [9, -1, 100]⟩ : Indexes3D).type ≠ (squareMesh []).triangleFan ∧
      (⟨7, [9, -1, 100]⟩ : Indexes3D).type ≠ (squareMesh []).triangleStrip ∧
      (⟨7, [9, -1, 100]⟩ : Indexes3D).type ≠ (squareMesh []).triangles) ∧
    forEachTriangleGroup (squareMesh []) ⟨7, [9, -1, 100]⟩ = ⟨[], none⟩ :=
  ⟨⟨by decide, by decide, by decide⟩,
    (untyped_group_no_visits (squareMesh []) ⟨7, [9, -1, 100]⟩ (by decide) (by decide)
      (by decide)).1⟩

/-- C13. When tag fields collide the topology is chosen by the precedence fan, strip, list.  A
group whose type equals triangleFan runs the fan branch (the call of front(), then the fan loop
with that first index) whatever triangleStrip and triangles hold;
a group whose type equals triangleStrip but not triangleFan runs the strip loop whatever
triangles holds; a group whose type equals only triangles runs the list loop; any other group
runs no loop.  With all three tags equal to 4, the group 0,1,2,3 of type 4 gives the two fan
triangles; with strip and list tags equal to 4 and fan tag 6 it gives the two strip triangles. -/
theorem tag_collision_precedence {F M : Type} (g : Geometry3D F M) (grp : Indexes3D) :
    (grp.type = g.triangleFan →
      forEachTriangleGroup g grp =
        match front grp.indexes with
        | Except.error e => ⟨[], some e⟩
        | Except.ok firstIndex =>
          fanLoop g.verts firstIndex grp.indexes (calcVMax grp.indexes.length 1) 1) ∧
    (grp.type ≠ g.triangleFan → grp.type = g.triangleStrip →
      forEachTriangleGroup g grp =
        stripLoop g.verts grp.indexes (calcVMax grp.indexes.length 2) 0) ∧
    (grp.type ≠ g.triangleFan → grp.type ≠ g.triangleStrip → grp.type = g.triangles →
      forEachTriangleGroup g grp =
        trianglesLoop g.verts grp.indexes (calcVMax grp.indexes.length 2) 0) ∧
    (grp.type ≠ g.triangleFan → grp.type ≠ g.triangleStrip → grp.type ≠ g.triangles →
      forEachTriangleGroup g grp = ⟨[], none⟩) ∧
    forEachTriangleGroup
        { squareMesh [] with triangleFan := 4, triangleStrip := 4, triangles := 4 }
        ⟨4, [0, 1, 2, 3]⟩ =
      ⟨[(⟨0, 0, 0⟩, ⟨1, 0, 0⟩, ⟨1, 1, 0⟩), (⟨0, 0, 0⟩, ⟨1, 1, 0⟩, ⟨0, 1, 0⟩)], none⟩ ∧
    forEachTriangleGroup
        { squareMesh [] with triangleFan := 6, triangleStrip := 4, triangles := 4 }
        ⟨4, [0, 1, 2, 3]⟩ =
      ⟨[(⟨0, 0, 0⟩, ⟨1, 0, 0⟩, ⟨1, 1, 0⟩), (⟨1, 0, 0⟩, ⟨1, 1, 0⟩, ⟨0, 1, 0⟩)], none⟩ := by
  refine ⟨?_, ?_, ?_, ?_, ?_, ?_⟩
  · intro h
    unfold forEachTriangleGroup
    rw [if_pos h]
    cases front grp.indexes <;> rfl
  · intro h1 h2
    unfold forEachTriangleGroup
    rw [if_neg h1, if_pos h2]
  · intro h1 h2 h3
    unfold forEachTriangleGroup
    rw [if_neg h1, if_neg h2, if_pos h3]
  · intro h1 h2 h3
    unfold forEachTriangleGroup
    rw [if_neg h1, if_neg h2, if_neg h3]
    rfl
  · rw [forEachTriangleGroup_eq]
    decide
  · rw [forEachTriangleGroup_eq]
    decide

/-- C17. A default-constructed mesh carries the tags of the graphics API for the same topology,
pairwise distinct: triangleFan = TP_TRIANGLE_FAN = 0x0006 = GL_TRIANGLE_FAN, triangleStrip =
TP_TRIANGLE_STRIP = 0x0005 = GL_TRIANGLE_STRIP, triangles = TP_TRIANGLES = 0x0004 =
GL_TRIANGLES. -/
theorem default_tags {F M : Type} (m : M) :
    (({ material := m } : Geometry3D F M).triangleFan = TP_TRIANGLE_FAN ∧
      TP_TRIANGLE_FAN = 0x0006 ∧ TP_TRIANGLE_FAN = GL_TRIANGLE_FAN) ∧
    (({ material := m } : Geometry3D F M).triangleStrip = TP_TRIANGLE_STRIP ∧
      TP_TRIANGLE_STRIP = 0x0005 ∧ TP_TRIANGLE_STRIP = GL_TRIANGLE_STRIP) ∧
    (({ material := m } : Geometry3D F M).triangles = TP_TRIANGLES ∧
      TP_TRIANGLES = 0x0004 ∧ TP_TRIANGLES = GL_TRIANGLES) ∧
    ({ material := m } : Geometry3D F M).triangleFan ≠
      ({ material := m } : Geometry3D F M).triangleStrip ∧
    ({ material := m } : Geometry3D F M).triangleFan ≠
      ({ material := m } : Geometry3D F M).triangles ∧
    ({ material := m } : Geometry3D F M).triangleStrip ≠
      ({ material := m } : Geometry3D F M).triangles := by
  refine ⟨⟨rfl, rfl, rfl⟩, ⟨rfl, rfl, rfl⟩, ⟨rfl, rfl, rfl⟩, ?_, ?_, ?_⟩
  · show TP_TRIANGLE_FAN ≠ TP_TRIANGLE_STRIP
    decide
  · show TP_TRIANGLE_FAN ≠ TP_TRIANGLES
    decide
  · show TP_TRIANGLE_STRIP ≠ TP_TRIANGLES
    decide

/-! ## Mesh equality -/

/-- C14 (counterexample). With the `==` of IEEE floats, a mesh that has a NaN coordinate does
not compare equal to the mesh that differs from it only in the material (nor to itself).  And
two meshes that differ only in the sign of a zero coordinate compare equal, although
forEachTriangle hands different values to the closure. -/
theorem operatorEq_nan_counterexample :
    Geometry3D.operatorEq FloatValue.ieeeEq (floatMesh FloatValue.nan 0)
        { floatMesh FloatValue.nan 0 with material := 1 } = false ∧
    Geometry3D.operatorEq FloatValue.ieeeEq (floatMesh FloatValue.nan 0)
        (floatMesh FloatValue.nan 0) = false ∧
    Geometry3D.operatorEq FloatValue.ieeeEq (floatMesh (FloatValue.zero false) 0)
        (floatMesh (FloatValue.zero true) 0) = true ∧
    forEachTriangle (floatMesh (FloatValue.zero false) 0) ≠
      forEachTriangle (floatMesh (FloatValue.zero true) 0) := by
  simp only [forEachTriangle_eq_runGroups]
  decide

/-- C14 (amended). The operator Geometry3D::operator== is the conjunction of the comparisons of
comments, verts, indexes and the three tag fields, the vertices being compared with the float
`==`; the material never influences the result.  A mesh compares equal to the same mesh with
another material when each of its vertices compares equal to itself (no NaN component).  Two
meshes that compare equal have forEachTriangle runs with the same fault and with the same number
of closure calls, whose arguments compare equal under `==` call by call.  When the float `==`
is identity, meshes that differ only in the material always compare equal and meshes that
compare equal have the same run. -/
theorem operatorEq_fields {F M : Type} (floatEq : F → F → Bool) (g h : Geometry3D F M) :
    (Geometry3D.operatorEq floatEq g h = true ↔
      g.comments = h.comments ∧
      vectorEq (Vertex3D.operatorEq floatEq) g.verts h.verts = true ∧
      g.indexes = h.indexes ∧ g.triangleFan = h.triangleFan ∧
      g.triangleStrip = h.triangleStrip ∧ g.triangles = h.triangles) ∧
    (∀ m n : M, Geometry3D.operatorEq floatEq { g with material := m }
        { h with material := n } = Geometry3D.operatorEq floatEq g h) ∧
    ((∀ v ∈ g.verts, Vertex3D.operatorEq floatEq v v = true) →
      ∀ m : M, Geometry3D.operatorEq floatEq g { g with material := m } = true) ∧
    (Geometry3D.operatorEq floatEq g h = true →
      (forEachTriangle g).fault = (forEachTriangle h).fault ∧
      vectorEq (callEq floatEq) (forEachTriangle g).calls (forEachTriangle h).calls = true) ∧
    ((∀ a b : F, floatEq a b = true ↔ a = b) →
      (∀ m : M, Geometry3D.operatorEq floatEq g { g with material := m } = true) ∧
      (Geometry3D.operatorEq floatEq g h = true → forEachTriangle g = forEachTriangle h)) := by
  refine ⟨Geometry3D_operatorEq_iff floatEq g h, fun m n => rfl, ?_, ?_, ?_⟩
  · intro hself m
    exact (Geometry3D_operatorEq_iff floatEq g { g with material := m }).2
      ⟨rfl, vectorEq_self _ g.verts hself, rfl, rfl, rfl, rfl⟩
  · intro heq
    obtain ⟨-, hv, hi, hf, hs, ht⟩ := (Geometry3D_operatorEq_iff floatEq g h).1 heq
    rw [forEachTriangle_eq_runGroups, forEachTriangle_eq_runGroups, ← hi]
    exact runGroups_agree floatEq g h hv hf hs ht g.indexes
  · intro hexact
    have hvec : ∀ l₁ l₂ : List (Vertex3D F),
        vectorEq (Vertex3D.operatorEq floatEq) l₁ l₂ = true ↔ l₁ = l₂ :=
      vectorEq_iff _ (Vertex3D_operatorEq_iff floatEq hexact)
    constructor
    · intro m
      exact (Geometry3D_operatorEq_iff floatEq g { g with material := m }).2
        ⟨rfl, (hvec _ _).2 rfl, rfl, rfl, rfl, rfl⟩
    · intro heq
      obtain ⟨-, hv, hi, hf, hs, ht⟩ := (Geometry3D_operatorEq_iff floatEq g h).1 heq
      exact forEachTriangle_congr g h ((hvec _ _).1 hv) hi hf hs ht

/-! ## Light position and direction -/

/-- C15. In exact arithmetic, for a light whose view matrix is affine (bottom row 0, 0, 0, 1)
with an invertible upper-left 3x3 block, position() called after setPosition(p) returns p; and
the matrix that setPosition inverts (the inverse view matrix with its fourth column replaced by
(p, 1)) is invertible, as are the view matrix and its inverse before the replacement. -/
theorem position_setPosition {K : Type} [Field K] (l : Light K) (p : vec3 K)
    (haffine : l.viewMatrix 3 0 = 0 ∧ l.viewMatrix 3 1 = 0 ∧ l.viewMatrix 3 2 = 0 ∧
      l.viewMatrix 3 3 = 1)
    (hdet : (glm.toMat3 l.viewMatrix).det ≠ 0) :
    (l.setPosition p).position = p ∧
    ((glm.inverse l.viewMatrix).updateColumn 3 ![p.x, p.y, p.z, 1]).det ≠ 0 ∧
    l.viewMatrix.det ≠ 0 ∧ (glm.inverse l.viewMatrix).det ≠ 0 := by
  obtain ⟨h0, h1, h2, h3⟩ := haffine
  obtain ⟨B, hB, -, hm, hinv⟩ := setPosition_affine l p h0 h1 h2 h3 hdet
  refine ⟨?_, ?_, det_inverse_viewMatrix_ne_zero l.viewMatrix h0 h1 h2 h3 hdet⟩
  · unfold Light.position
    rw [hinv]
    simp [affine]
  · rw [hm]
    exact det_affine_ne_zero B _ hB

/-- Witness of C15: the example light moved to (5, 6, 7). -/
theorem position_setPosition_witness :
    ((exampleLight.viewMatrix 3 0 = 0 ∧ exampleLight.viewMatrix 3 1 = 0 ∧
        exampleLight.viewMatrix 3 2 = 0 ∧ exampleLight.viewMatrix 3 3 = 1) ∧
      (glm.toMat3 exampleLight.viewMatrix).det ≠ 0) ∧
    (exampleLight.setPosition ⟨5, 6, 7⟩).position = ⟨5, 6, 7⟩ :=
  ⟨exampleLight_affine,
    (position_setPosition exampleLight ⟨5, 6, 7⟩ exampleLight_affine.1 exampleLight_affine.2).1⟩

/-- C16. In exact arithmetic, for a light whose view matrix is affine (bottom row 0, 0, 0, 1)
with an invertible upper-left 3x3 block, setPosition(p) leaves direction() unchanged. -/
theorem direction_setPosition {K : Type} [Field K] (l : Light K) (p : vec3 K)
    (haffine : l.viewMatrix 3 0 = 0 ∧ l.viewMatrix 3 1 = 0 ∧ l.viewMatrix 3 2 = 0 ∧
      l.viewMatrix 3 3 = 1)
    (hdet : (glm.toMat3 l.viewMatrix).det ≠ 0) :
    (l.setPosition p).direction = l.direction := by
  obtain ⟨h0, h1, h2, h3⟩ := haffine
  obtain ⟨B, -, hB, -, hinv⟩ := setPosition_affine l p h0 h1 h2 h3 hdet
  unfold Light.direction
  rw [hinv, toMat3_affine, hB]

/-- Witness of C16: the example light moved to (5, 6, 7) keeps its direction. -/
theorem direction_setPosition_witness :
    ((exampleLight.viewMatrix 3 0 = 0 ∧ exampleLight.viewMatrix 3 1 = 0 ∧
        exampleLight.viewMatrix 3 2 = 0 ∧ exampleLight.viewMatrix 3 3 = 1) ∧
      (glm.toMat3 exampleLight.viewMatrix).det ≠ 0) ∧
    (exampleLight.setPosition ⟨5, 6, 7⟩).direction = exampleLight.direction :=
  ⟨exampleLight_affine,
    direction_setPosition exampleLight ⟨5, 6, 7⟩ exampleLight_affine.1 exampleLight_affine.2⟩

end tp_math_utils
